import Mathlib

/-! LivePathTracer entity layer (`lptEntity.h`)

A shallow embedding of the reference-counting base `RefCount<T>`, the dirty-flag
tracker `EntityBase<T>`, the GPU-layout records and their `DefCompare` equality,
followed by the properties established about them.

Conventions.
* `int` / `std::atomic_int` values are `Int`s in `[-2^31, 2^31)`; the atomic
  pre-increment and pre-decrement wrap in two's complement (`wrapInt32`).
* `uint32_t` values and `float` bit patterns are `Nat`s below `2^32`.
* `delete this` is recorded in a ghost field `alive`.
-/

namespace lpt

/-! ## Machine integers -/

/-- Smallest value of a 32-bit `int`. -/
def INT_MIN : Int := -2147483648

/-- Largest value of a 32-bit `int`. -/
def INT_MAX : Int := 2147483647

/-- The value is representable as a 32-bit `int`. -/
def IsInt32 (x : Int) : Prop := INT_MIN ≤ x ∧ x ≤ INT_MAX

instance (x : Int) : Decidable (IsInt32 x) := by
  unfold IsInt32; exact inferInstance

/-- Two's-complement reduction of a mathematical integer to a 32-bit `int`
(the arithmetic of `std::atomic_int`). -/
def wrapInt32 (x : Int) : Int := (x + 2147483648) % 4294967296 - 2147483648

/-- The value is representable as a `uint32_t`. -/
def IsUInt32 (x : Nat) : Prop := x < 4294967296

instance (x : Nat) : Decidable (IsUInt32 x) := by
  unfold IsUInt32; exact inferInstance

/-! ## `RefCount<T>` -/

/-- Data members of `RefCount<T>`, plus the ghost flag `alive` that is cleared
when `delete this` runs. -/
structure RefCount where
  m_ref_external : Int
  m_ref_internal : Int
  m_name : String
  m_dirty_flags : Nat
  alive : Bool
  deriving DecidableEq, Repr

namespace RefCount

/-- State of a newly constructed object: the default member initialisers. -/
def init : RefCount :=
  { m_ref_external := 0, m_ref_internal := 0, m_name := "", m_dirty_flags := 0, alive := true }

/-- Both counters hold 32-bit `int` values. -/
def InRange (s : RefCount) : Prop := IsInt32 s.m_ref_external ∧ IsInt32 s.m_ref_internal

instance (s : RefCount) : Decidable (InRange s) := by
  unfold InRange; exact inferInstance

/-- Source: `int addRef() { return ++m_ref_external; }` -/
def addRef (s : RefCount) : Int × RefCount :=
  let v := wrapInt32 (s.m_ref_external + 1)
  (v, { s with m_ref_external := v })

/-- Source: `int release() { return --m_ref_external; }` -/
def release (s : RefCount) : Int × RefCount :=
  let v := wrapInt32 (s.m_ref_external - 1)
  (v, { s with m_ref_external := v })

/-- Source: `int getRef() const { return m_ref_external; }` -/
def getRef (s : RefCount) : Int × RefCount := (s.m_ref_external, s)

/-- Source: `int addRefInternal() { return ++m_ref_internal; }` -/
def addRefInternal (s : RefCount) : Int × RefCount :=
  let v := wrapInt32 (s.m_ref_internal + 1)
  (v, { s with m_ref_internal := v })

/-- Source: `int releaseInternal() { int ret = --m_ref_internal; if (ret == 0) delete this; return ret; }` -/
def releaseInternal (s : RefCount) : Int × RefCount :=
  let ret := wrapInt32 (s.m_ref_internal - 1)
  let s1 := { s with m_ref_internal := ret }
  let s2 := if ret = 0 then { s1 with alive := false } else s1
  (ret, s2)

/-- Source: `int getRefInternal() const { return m_ref_internal; }` -/
def getRefInternal (s : RefCount) : Int × RefCount := (s.m_ref_internal, s)

/-- Source: `void setName(const char* v) { m_name = v; }` -/
def setName (s : RefCount) (v : String) : RefCount := { s with m_name := v }

/-- Source: `const char* getName() const { return m_name.c_str(); }` -/
def getName (s : RefCount) : String := s.m_name

end RefCount

/-- Source: `InternalReleaser<T>::addRef(T* v) { v->addRefInternal(); }` -/
def InternalReleaser.addRef (s : RefCount) : RefCount := (RefCount.addRefInternal s).2

/-- Source: `InternalReleaser<T>::release(T* v) { v->releaseInternal(); }` -/
def InternalReleaser.release (s : RefCount) : RefCount := (RefCount.releaseInternal s).2

/-! ### Call sequences -/

/-- The four counting entry points of `RefCount<T>`. -/
inductive Call where
  | addRef
  | release
  | addRefInternal
  | releaseInternal
  deriving DecidableEq, Repr

/-- Effect of one call on the object state (the returned count is dropped). -/
def Call.apply : Call → RefCount → RefCount
  | .addRef, s => (RefCount.addRef s).2
  | .release, s => (RefCount.release s).2
  | .addRefInternal, s => (RefCount.addRefInternal s).2
  | .releaseInternal, s => (RefCount.releaseInternal s).2

/-- States observed after each call of a sequence. A call is only applied to an
object that is still alive; the sequence ends at destruction. -/
def runCalls : RefCount → List Call → List RefCount
  | _, [] => []
  | s, c :: cs =>
    if s.alive then
      let s1 := c.apply s
      s1 :: runCalls s1 cs
    else []

/-- Every prefix of the sequence contains at least as many `acq` as `rel` calls. -/
def Balanced (acq rel : Call) (cs : List Call) : Prop :=
  ∀ k, k ≤ cs.length → (cs.take k).count rel ≤ (cs.take k).count acq

instance (acq rel : Call) (cs : List Call) : Decidable (Balanced acq rel cs) := by
  unfold Balanced; exact inferInstance

/-! ## Flag enumerations -/

/-- The constant `lptMaxLights`. -/
def lptMaxLights : Nat := 32

/-- Values of `enum class DirtyFlag : uint32_t`. -/
abbrev DirtyFlag := Nat

namespace DirtyFlag

def None : DirtyFlag := 0x00000000
def Transform : DirtyFlag := 0x00000001
def Blendshape : DirtyFlag := 0x00000002
def Joints : DirtyFlag := 0x00000004

def Indices : DirtyFlag := 0x00000010
def Points : DirtyFlag := 0x00000020
def Normals : DirtyFlag := 0x00000040
def Tangents : DirtyFlag := 0x00000080
def UV : DirtyFlag := 0x00000100

def Camera : DirtyFlag := 0x01000000
def Light : DirtyFlag := 0x02000000
def RenderTarget : DirtyFlag := 0x04000000
def Texture : DirtyFlag := 0x08000000
def TextureData : DirtyFlag := 0x10000000
def Material : DirtyFlag := 0x20000000
def Mesh : DirtyFlag := 0x40000000
def Instance : DirtyFlag := 0x80000000

def Deform : DirtyFlag := Transform ||| Blendshape ||| Joints
def Shape : DirtyFlag := Indices ||| Points
def Vertices : DirtyFlag := Indices ||| Points ||| Normals ||| Tangents ||| UV
def SceneEntities : DirtyFlag := Camera ||| Light ||| RenderTarget ||| Instance
def Any : DirtyFlag := 0xffffffff

end DirtyFlag

/-! ## `EntityBase<T>` -/

/-- An `EntityBase<T>` object: the inherited `RefCount<T>` part and the member
`EntityBase::m_dirty_flags`, which hides `RefCount::m_dirty_flags`. -/
structure EntityBase where
  base : RefCount
  m_dirty_flags : Nat
  deriving DecidableEq, Repr

namespace EntityBase

/-- State of a newly constructed object: the default member initialisers. -/
def init : EntityBase := { base := RefCount.init, m_dirty_flags := 0 }

/-- Source: `bool isDirty(DirtyFlag v = DirtyFlag::Any) const { return (m_dirty_flags & (uint32_t)v) != 0; }` -/
def isDirty (e : EntityBase) (v : DirtyFlag := DirtyFlag.Any) : Bool :=
  (e.m_dirty_flags &&& v) != 0

/-- Source: `void markDirty(DirtyFlag v) { m_dirty_flags |= (uint32_t)v; }` -/
def markDirty (e : EntityBase) (v : DirtyFlag) : EntityBase :=
  { e with m_dirty_flags := e.m_dirty_flags ||| v }

/-- Source: `void clearDirty() { m_dirty_flags = 0; }` -/
def clearDirty (e : EntityBase) : EntityBase :=
  { e with m_dirty_flags := 0 }

end EntityBase

/-! ## GPU-layout records

Every `float`, `int` and `uint32_t` member is kept as its 32-bit pattern, a
natural number below `2^32`. The object representation of a record is the
little-endian byte image of its members in declaration order. -/

/-- Modelled from the spec: `float2` is declared in MeshUtils, outside the
sources at hand; a two-component float vector. -/
structure float2 where
  x : Nat
  y : Nat
  deriving DecidableEq, Repr

/-- Modelled from the spec: `float3` is declared in MeshUtils, outside the
sources at hand; a three-component float vector. -/
structure float3 where
  x : Nat
  y : Nat
  z : Nat
  deriving DecidableEq, Repr

/-- Modelled from the spec: `float4` is declared in MeshUtils, outside the
sources at hand; a four-component float vector. -/
structure float4 where
  x : Nat
  y : Nat
  z : Nat
  w : Nat
  deriving DecidableEq, Repr

/-- Modelled from the spec: `quatf` is declared in MeshUtils, outside the
sources at hand; a quaternion of four floats. -/
structure quatf where
  x : Nat
  y : Nat
  z : Nat
  w : Nat
  deriving DecidableEq, Repr

/-- Modelled from the spec: `int2` is declared in MeshUtils, outside the
sources at hand; a pair of 32-bit integers. -/
structure int2 where
  x : Nat
  y : Nat
  deriving DecidableEq, Repr

/-- Modelled from the spec: `float4x4` is declared in MeshUtils, outside the
sources at hand; a matrix of four `float4` rows. -/
structure float4x4 where
  r0 : float4
  r1 : float4
  r2 : float4
  r3 : float4
  deriving DecidableEq, Repr

/-- Three consecutive `uint32_t`, the type of `uint32_t pad1[3]`. -/
structure uint32x3 where
  e0 : Nat
  e1 : Nat
  e2 : Nat
  deriving DecidableEq, Repr

/-- The 32-bit words of a `float3`. -/
def float3.words (v : float3) : List Nat := [v.x, v.y, v.z]

/-- The 32-bit words of a `float4`. -/
def float4.words (v : float4) : List Nat := [v.x, v.y, v.z, v.w]

/-- The 32-bit words of a `quatf`. -/
def quatf.words (v : quatf) : List Nat := [v.x, v.y, v.z, v.w]

/-- The 32-bit words of an `int2`. -/
def int2.words (v : int2) : List Nat := [v.x, v.y]

/-- The 32-bit words of a `float4x4`. -/
def float4x4.words (m : float4x4) : List Nat :=
  m.r0.words ++ m.r1.words ++ m.r2.words ++ m.r3.words

/-- The 32-bit words of a `uint32_t[3]`. -/
def uint32x3.words (v : uint32x3) : List Nat := [v.e0, v.e1, v.e2]

/-- Little-endian bytes of one 32-bit word. -/
def word32Bytes (w : Nat) : List Nat :=
  [w % 256, w / 256 % 256, w / 65536 % 256, w / 16777216 % 256]

/-- Byte image of a sequence of 32-bit words. -/
def wordsBytes : List Nat → List Nat
  | [] => []
  | w :: ws => word32Bytes w ++ wordsBytes ws

/-- All words of the sequence are 32-bit values. -/
def WordsOK (ws : List Nat) : Prop := ∀ w ∈ ws, IsUInt32 w

instance (ws : List Nat) : Decidable (WordsOK ws) := by
  unfold WordsOK; exact inferInstance

/-- The C library function `memcmp(p, q, n)` on two byte images: the difference of
the first pair of differing bytes among the first `n`, `0` when there is none.
Reading past the end of an image has no result. -/
def memcmp : List Nat → List Nat → Nat → Option Int
  | _, _, 0 => some 0
  | x :: xs, y :: ys, n + 1 => if x = y then memcmp xs ys n else some ((x : Int) - (y : Int))
  | _, _, _ + 1 => none

/-- The record `struct CameraData`. The anonymous union of `float3 position` and
`float4 position4` is kept as its largest member. -/
structure CameraData where
  view : float4x4
  proj : float4x4
  position4 : float4
  rotation : quatf
  near_plane : Nat
  far_plane : Nat
  fov : Nat
  pad : Nat
  deriving DecidableEq, Repr

/-- The record `struct LightData`; the enumeration member `light_type` is kept as its
32-bit pattern. -/
structure LightData where
  light_type : Nat
  pad1 : uint32x3
  position : float3
  range : Nat
  direction : float3
  spot_angle : Nat
  color : float3
  pad2 : Nat
  deriving DecidableEq, Repr

/-- The record `struct MaterialData`. -/
structure MaterialData where
  diffuse : float3
  roughness : Nat
  emissive : float3
  opacity : Nat
  diffuse_tex : Nat
  emissive_tex : Nat
  pad_tex : int2
  deriving DecidableEq, Repr

/-- The record `struct InstanceData`. -/
structure InstanceData where
  local_to_world : float4x4
  world_to_local : float4x4
  mesh_index : Nat
  material_index : Nat
  instance_flags : Nat
  layer_mask : Nat
  deriving DecidableEq, Repr

/-- The record `struct SceneData`; `lights` is the array `LightData lights[lptMaxLights]`. -/
structure SceneData where
  render_flags : Nat
  light_count : Nat
  shadow_ray_offset : Nat
  self_shadow_threshold : Nat
  camera : CameraData
  lights : List LightData
  deriving DecidableEq, Repr

namespace CameraData

/-- The union member `float3 position`: the first three floats of `position4`. -/
def position (d : CameraData) : float3 := ⟨d.position4.x, d.position4.y, d.position4.z⟩

/-- The 32-bit words of the record, in declaration order. -/
def words (d : CameraData) : List Nat :=
  d.view.words ++ d.proj.words ++ d.position4.words ++ d.rotation.words
    ++ [d.near_plane, d.far_plane, d.fov, d.pad]

/-- Object representation. -/
def bytes (d : CameraData) : List Nat := wordsBytes d.words

/-- The value of `sizeof(CameraData)`: 44 words. -/
def sizeof : Nat := 176

/-- Source: `bool operator==(const T& v) const { return std::memcmp(this, &v, sizeof(*this)) == 0; }` -/
def eq (a v : CameraData) : Bool := decide (memcmp a.bytes v.bytes sizeof = some 0)

/-- Source: `bool operator!=(const T& v) const { return !(*this == v); }` -/
def ne (a v : CameraData) : Bool := !(eq a v)

/-- All members are 32-bit values. -/
def WF (d : CameraData) : Prop := WordsOK d.words

/-- Every field of `a` has the same bit pattern as the corresponding field of `b`. -/
def FieldsEq (a b : CameraData) : Prop :=
  a.view = b.view ∧ a.proj = b.proj ∧ a.position4 = b.position4 ∧ a.rotation = b.rotation ∧
  a.near_plane = b.near_plane ∧ a.far_plane = b.far_plane ∧ a.fov = b.fov ∧ a.pad = b.pad

end CameraData

namespace LightData

/-- The 32-bit words of the record, in declaration order. -/
def words (d : LightData) : List Nat :=
  [d.light_type] ++ d.pad1.words ++ d.position.words ++ [d.range]
    ++ d.direction.words ++ [d.spot_angle] ++ d.color.words ++ [d.pad2]

/-- Object representation. -/
def bytes (d : LightData) : List Nat := wordsBytes d.words

/-- The value of `sizeof(LightData)`: 16 words. -/
def sizeof : Nat := 64

/-- Source: `bool operator==(const T& v) const { return std::memcmp(this, &v, sizeof(*this)) == 0; }` -/
def eq (a v : LightData) : Bool := decide (memcmp a.bytes v.bytes sizeof = some 0)

/-- Source: `bool operator!=(const T& v) const { return !(*this == v); }` -/
def ne (a v : LightData) : Bool := !(eq a v)

/-- All members are 32-bit values. -/
def WF (d : LightData) : Prop := WordsOK d.words

/-- Every field of `a` has the same bit pattern as the corresponding field of `b`. -/
def FieldsEq (a b : LightData) : Prop :=
  a.light_type = b.light_type ∧ a.pad1 = b.pad1 ∧ a.position = b.position ∧ a.range = b.range ∧
  a.direction = b.direction ∧ a.spot_angle = b.spot_angle ∧ a.color = b.color ∧ a.pad2 = b.pad2

end LightData

namespace MaterialData

/-- The 32-bit words of the record, in declaration order. -/
def words (d : MaterialData) : List Nat :=
  d.diffuse.words ++ [d.roughness] ++ d.emissive.words ++ [d.opacity]
    ++ [d.diffuse_tex, d.emissive_tex] ++ d.pad_tex.words

/-- Object representation. -/
def bytes (d : MaterialData) : List Nat := wordsBytes d.words

/-- The value of `sizeof(MaterialData)`: 12 words. -/
def sizeof : Nat := 48

/-- Source: `bool operator==(const T& v) const { return std::memcmp(this, &v, sizeof(*this)) == 0; }` -/
def eq (a v : MaterialData) : Bool := decide (memcmp a.bytes v.bytes sizeof = some 0)

/-- Source: `bool operator!=(const T& v) const { return !(*this == v); }` -/
def ne (a v : MaterialData) : Bool := !(eq a v)

/-- All members are 32-bit values. -/
def WF (d : MaterialData) : Prop := WordsOK d.words

/-- Every field of `a` has the same bit pattern as the corresponding field of `b`. -/
def FieldsEq (a b : MaterialData) : Prop :=
  a.diffuse = b.diffuse ∧ a.roughness = b.roughness ∧ a.emissive = b.emissive ∧ a.opacity = b.opacity ∧
  a.diffuse_tex = b.diffuse_tex ∧ a.emissive_tex = b.emissive_tex ∧ a.pad_tex = b.pad_tex

end MaterialData

namespace InstanceData

/-- The 32-bit words of the record, in declaration order. -/
def words (d : InstanceData) : List Nat :=
  d.local_to_world.words ++ d.world_to_local.words
    ++ [d.mesh_index, d.material_index, d.instance_flags, d.layer_mask]

/-- Object representation. -/
def bytes (d : InstanceData) : List Nat := wordsBytes d.words

/-- The value of `sizeof(InstanceData)`: 36 words. -/
def sizeof : Nat := 144

/-- Source: `bool operator==(const T& v) const { return std::memcmp(this, &v, sizeof(*this)) == 0; }` -/
def eq (a v : InstanceData) : Bool := decide (memcmp a.bytes v.bytes sizeof = some 0)

/-- Source: `bool operator!=(const T& v) const { return !(*this == v); }` -/
def ne (a v : InstanceData) : Bool := !(eq a v)

/-- All members are 32-bit values. -/
def WF (d : InstanceData) : Prop := WordsOK d.words

/-- Every field of `a` has the same bit pattern as the corresponding field of `b`. -/
def FieldsEq (a b : InstanceData) : Prop :=
  a.local_to_world = b.local_to_world ∧ a.world_to_local = b.world_to_local ∧
  a.mesh_index = b.mesh_index ∧ a.material_index = b.material_index ∧ a.instance_flags = b.instance_flags ∧ a.layer_mask = b.layer_mask

end InstanceData

/-- The 32-bit words of an array of light records. -/
def lightsWords : List LightData → List Nat
  | [] => []
  | l :: ls => l.words ++ lightsWords ls

namespace SceneData

/-- The 32-bit words of the record, in declaration order. -/
def words (d : SceneData) : List Nat :=
  [d.render_flags, d.light_count, d.shadow_ray_offset, d.self_shadow_threshold]
    ++ d.camera.words ++ lightsWords d.lights

/-- Object representation. -/
def bytes (d : SceneData) : List Nat := wordsBytes d.words

/-- The value of `sizeof(SceneData)`: 560 words. -/
def sizeof : Nat := 2240

/-- Source: `bool operator==(const T& v) const { return std::memcmp(this, &v, sizeof(*this)) == 0; }` -/
def eq (a v : SceneData) : Bool := decide (memcmp a.bytes v.bytes sizeof = some 0)

/-- Source: `bool operator!=(const T& v) const { return !(*this == v); }` -/
def ne (a v : SceneData) : Bool := !(eq a v)

/-- All members are 32-bit values and the light array has `lptMaxLights` elements. -/
def WF (d : SceneData) : Prop := WordsOK d.words ∧ d.lights.length = lptMaxLights

/-- Every field of `a` has the same bit pattern as the corresponding field of `b`. -/
def FieldsEq (a b : SceneData) : Prop :=
  a.render_flags = b.render_flags ∧ a.light_count = b.light_count ∧
  a.shadow_ray_offset = b.shadow_ray_offset ∧ a.self_shadow_threshold = b.self_shadow_threshold ∧
  a.camera = b.camera ∧ a.lights = b.lights

end SceneData

/-- IEEE-754 binary32: the bit pattern is a NaN. -/
def floatIsNaN (w : Nat) : Bool := decide (w / 8388608 % 256 = 255 ∧ w % 8388608 ≠ 0)

/-- IEEE-754 binary32: the bit pattern is `+0.0` or `-0.0`. -/
def floatIsZero (w : Nat) : Bool := decide (w % 2147483648 = 0)

/-- Numeric comparison `x == y` of two `float`s given by their bit patterns
(IEEE-754: a NaN equals nothing, the two zeros are equal). -/
def floatNumEq (x y : Nat) : Bool :=
  if floatIsNaN x || floatIsNaN y then false
  else if floatIsZero x && floatIsZero y then true
  else decide (x = y)

instance (d : CameraData) : Decidable (CameraData.WF d) := by
  unfold CameraData.WF; exact inferInstance

instance (d : LightData) : Decidable (LightData.WF d) := by
  unfold LightData.WF; exact inferInstance

instance (d : MaterialData) : Decidable (MaterialData.WF d) := by
  unfold MaterialData.WF; exact inferInstance

instance (d : InstanceData) : Decidable (InstanceData.WF d) := by
  unfold InstanceData.WF; exact inferInstance

instance (d : SceneData) : Decidable (SceneData.WF d) := by
  unfold SceneData.WF; exact inferInstance

instance (a b : CameraData) : Decidable (CameraData.FieldsEq a b) := by
  unfold CameraData.FieldsEq; exact inferInstance

instance (a b : LightData) : Decidable (LightData.FieldsEq a b) := by
  unfold LightData.FieldsEq; exact inferInstance

instance (a b : MaterialData) : Decidable (MaterialData.FieldsEq a b) := by
  unfold MaterialData.FieldsEq; exact inferInstance

instance (a b : InstanceData) : Decidable (InstanceData.FieldsEq a b) := by
  unfold InstanceData.FieldsEq; exact inferInstance

instance (a b : SceneData) : Decidable (SceneData.FieldsEq a b) := by
  unfold SceneData.FieldsEq; exact inferInstance

/-! ## Concrete entities and their default construction

Members declared with an initialiser take its value; members without one
(`CameraData::position4`, `LightData::pad1`, the scalars of `SceneData`) are
indeterminate after default construction and appear as constructor parameters. -/

/-- The zero `float4`. -/
def float4.zero : float4 := ⟨0, 0, 0, 0⟩

/-- The zero `float3`. -/
def float3.zero : float3 := ⟨0, 0, 0⟩

/-- The zero `float4x4`. -/
def float4x4.zero : float4x4 := ⟨float4.zero, float4.zero, float4.zero, float4.zero⟩

/-- A default-initialised `CameraData`; `position4` has no initialiser. -/
def CameraData.init (position4 : float4) : CameraData :=
  { view := float4x4.zero, proj := float4x4.zero, position4 := position4,
    rotation := ⟨0, 0, 0, 0⟩, near_plane := 0, far_plane := 0, fov := 0, pad := 0 }

/-- A default-initialised `LightData`; `pad1` has no initialiser. -/
def LightData.init (pad1 : uint32x3) : LightData :=
  { light_type := 0, pad1 := pad1, position := float3.zero, range := 0,
    direction := float3.zero, spot_angle := 0, color := float3.zero, pad2 := 0 }

/-- A default-initialised `MaterialData`: every member has the initialiser `{}`. -/
def MaterialData.init : MaterialData :=
  { diffuse := float3.zero, roughness := 0, emissive := float3.zero, opacity := 0,
    diffuse_tex := 0, emissive_tex := 0, pad_tex := ⟨0, 0⟩ }

/-- A default-initialised `SceneData`; the four scalars, the camera position and
the `pad1` of each light have no initialiser. -/
def SceneData.init (render_flags light_count shadow_ray_offset self_shadow_threshold : Nat)
    (position4 : float4) (pad1 : Fin lptMaxLights → uint32x3) : SceneData :=
  { render_flags := render_flags, light_count := light_count,
    shadow_ray_offset := shadow_ray_offset, self_shadow_threshold := self_shadow_threshold,
    camera := CameraData.init position4,
    lights := List.ofFn (fun i => LightData.init (pad1 i)) }

/-- The class `Camera : EntityBase<ICamera>`. -/
structure Camera where
  entity : EntityBase
  m_data : CameraData
  deriving DecidableEq, Repr

/-- The class `Light : EntityBase<ILight>`. -/
structure Light where
  entity : EntityBase
  m_data : LightData
  deriving DecidableEq, Repr

/-- The class `Material : EntityBase<IMaterial>`; a `TexturePtr` is the handle of
the texture it points to, if any. -/
structure Material where
  entity : EntityBase
  m_index : Int
  m_data : MaterialData
  m_tex_diffuse : Option Nat
  m_tex_emissive : Option Nat
  deriving DecidableEq, Repr

/-- Modelled from the spec: `JointWeight` is declared outside the sources at hand;
a joint weight paired with a joint index. -/
structure JointWeight where
  weight : Nat
  index : Nat
  deriving DecidableEq, Repr

/-- The record `BlendshapeData::FrameData`. -/
structure BlendshapeData.FrameData where
  delta : List float3
  weight : Nat
  deriving DecidableEq, Repr

/-- The record `struct BlendshapeData`. -/
structure BlendshapeData where
  frames : List BlendshapeData.FrameData
  deriving DecidableEq, Repr

/-- The class `Mesh : EntityBase<IMesh>`. -/
structure Mesh where
  entity : EntityBase
  m_index : Int
  m_indices : List Int
  m_points : List float3
  m_normals : List float3
  m_tangents : List float3
  m_uv : List float2
  m_joint_bindposes : List float4x4
  m_joint_counts : List Nat
  m_joint_weights : List JointWeight
  blendshapes : List BlendshapeData
  m_dynamic : Bool
  deriving DecidableEq, Repr

/-- The class `Scene : EntityBase<IScene>`; the reference pointers are handles. -/
structure Scene where
  entity : EntityBase
  m_data : SceneData
  m_camera : Option Nat
  m_render_target : Option Nat
  m_lights : List Nat
  m_instances : List Nat
  deriving DecidableEq, Repr

/-- The implicit default constructor of `Camera`. -/
def Camera.new (position4 : float4) : Camera :=
  { entity := EntityBase.init, m_data := CameraData.init position4 }

/-- The implicit default constructor of `Light`. -/
def Light.new (pad1 : uint32x3) : Light :=
  { entity := EntityBase.init, m_data := LightData.init pad1 }

/-- The implicit default constructor of `Material`. -/
def Material.new : Material :=
  { entity := EntityBase.init, m_index := 0, m_data := MaterialData.init,
    m_tex_diffuse := none, m_tex_emissive := none }

/-- The implicit default constructor of `Mesh`. -/
def Mesh.new : Mesh :=
  { entity := EntityBase.init, m_index := 0, m_indices := [], m_points := [], m_normals := [],
    m_tangents := [], m_uv := [], m_joint_bindposes := [], m_joint_counts := [],
    m_joint_weights := [], blendshapes := [], m_dynamic := false }

/-- The implicit default constructor of `Scene`. -/
def Scene.new (render_flags light_count shadow_ray_offset self_shadow_threshold : Nat)
    (position4 : float4) (pad1 : Fin lptMaxLights → uint32x3) : Scene :=
  { entity := EntityBase.init,
    m_data := SceneData.init render_flags light_count shadow_ray_offset self_shadow_threshold
      position4 pad1,
    m_camera := none, m_render_target := none, m_lights := [], m_instances := [] }

/-! ## Light iteration

`eachLight` is a member template: `body` is any callable. It receives `lights[li]` by
reference and, through what it captures, can read and write the scene itself as well as
its own environment. A body is therefore a transformer of the pair of the scene (`*this`)
and an environment `σ`, told the index `li` of the element it is handed. -/

/-- Outcome of a run of `eachLight`: the indices `li` at which `lights[li]` was evaluated,
in order, and the final scene and environment. There is no final state when an index was
outside the array `LightData lights[lptMaxLights]`. -/
structure EachLightResult (σ : Type) where
  reads : List Nat
  final : Option (SceneData × σ)

namespace SceneData

/-- Source: `for (uint32_t li = 0; li < light_count; ++li) body(lights[li]);`, entered at
index `li`. The member `light_count` is read from the current scene before every
iteration. Evaluating `lights[li]` is inside the array exactly when `li < lptMaxLights`;
then `body` runs and `++li` cannot wrap. -/
def eachLightFrom {σ : Type} (body : Nat → SceneData × σ → SceneData × σ) (li : Nat)
    (st : SceneData × σ) : EachLightResult σ :=
  if li < st.1.light_count then
    if li < lptMaxLights then
      let r := eachLightFrom body (li + 1) (body li st)
      { reads := li :: r.reads, final := r.final }
    else { reads := [li], final := none }
  else { reads := [], final := some st }
termination_by lptMaxLights - li

/-- Source: `template<class Body> void eachLight(const Body& body)`, run on the scene
`st.1` with the environment `st.2`. -/
def eachLight {σ : Type} (body : Nat → SceneData × σ → SceneData × σ)
    (st : SceneData × σ) : EachLightResult σ :=
  eachLightFrom body 0 st

end SceneData

/-- The body never writes `light_count`. -/
def KeepsLightCount {σ : Type} (body : Nat → SceneData × σ → SceneData × σ) : Prop :=
  ∀ (i : Nat) (s : SceneData × σ), (body i s).1.light_count = s.1.light_count

/-- A body that only reads the record it is handed and updates its environment with `f`. -/
def readerBody {σ : Type} (f : σ → LightData → σ) : Nat → SceneData × σ → SceneData × σ :=
  fun i s =>
    match s.1.lights[i]? with
    | some l => (s.1, f s.2 l)
    | none => s

/-- A body that counts its invocations and writes `n` into `light_count`. -/
def countWritingBody (n : Nat) : Nat → SceneData × Nat → SceneData × Nat :=
  fun _ s => ({ s.1 with light_count := n }, s.2 + 1)

/-! ## Instance flags and `MeshInstance` -/

/-- Values of `enum class InstanceFlag : uint32_t`. -/
abbrev InstanceFlag := Nat

namespace InstanceFlag

def ReceiveShadows : InstanceFlag := 0x01
def ShadowsOnly : InstanceFlag := 0x02
def CastShadows : InstanceFlag := 0x04
def CullFront : InstanceFlag := 0x10
def CullBack : InstanceFlag := 0x20
def CullFrontShadow : InstanceFlag := 0x40
def CullBackShadow : InstanceFlag := 0x80

def Default : InstanceFlag := ReceiveShadows ||| CastShadows ||| CullBack

end InstanceFlag

/-- The class `MeshInstance : EntityBase<IMeshInstance>`; the reference pointers are
handles. -/
structure MeshInstance where
  entity : EntityBase
  m_data : InstanceData
  m_mesh : Option Nat
  m_material : Option Nat
  m_joint_matrices : List float4x4
  m_blendshape_weights : List Nat
  m_instance_flags : Nat
  deriving DecidableEq, Repr

/-- Modelled from the spec: the body of the constructor `MeshInstance(IMesh* v = nullptr)`
is outside the sources at hand. A freshly constructed instance is bound to the mesh `v`
and every other member has the value of its member initialiser, in particular
`m_instance_flags = (uint32_t)InstanceFlag::Default`; `m_data` has no initialiser. -/
def MeshInstance.new (v : Option Nat) (m_data : InstanceData) : MeshInstance :=
  { entity := EntityBase.init, m_data := m_data, m_mesh := v, m_material := none,
    m_joint_matrices := [], m_blendshape_weights := [],
    m_instance_flags := InstanceFlag.Default }

/-- Modelled from the spec: `bool hasFlag(InstanceFlag flag) const` is declared in the
header and defined outside the sources at hand; it tests the instance-flag mask against the
bit `flag`. -/
def MeshInstance.hasFlag (m : MeshInstance) (flag : InstanceFlag) : Bool :=
  (m.m_instance_flags &&& flag) != 0

/-! ## Call sequences with their results -/

/-- One call: the returned count and the object state after it. -/
def Call.run : Call → RefCount → Int × RefCount
  | .addRef, s => RefCount.addRef s
  | .release, s => RefCount.release s
  | .addRefInternal, s => RefCount.addRefInternal s
  | .releaseInternal, s => RefCount.releaseInternal s

/-- Returned count and state after each call of a sequence. A call is only applied to an
object that is still alive; the sequence ends at destruction. -/
def runCallsRet : RefCount → List Call → List (Int × RefCount)
  | _, [] => []
  | s, c :: cs =>
    if s.alive then
      let r := c.run s
      r :: runCallsRet r.2 cs
    else []

/-- Occurrences of `acq` minus occurrences of `rel` in a sequence of calls. -/
def netCount (acq rel : Call) (cs : List Call) : Int :=
  (cs.count acq : Int) - (cs.count rel : Int)

/-- No prefix of the sequence takes the count above `INT_MAX`, the largest value the
32-bit counter can hold. -/
def Representable (acq rel : Call) (cs : List Call) : Prop :=
  ∀ k, k ≤ cs.length → netCount acq rel (cs.take k) ≤ INT_MAX

instance (acq rel : Call) (cs : List Call) : Decidable (Representable acq rel cs) := by
  unfold Representable; exact inferInstance

/-- The sequence consists of calls `a` and `b` only. -/
def OnlyCalls (a b : Call) (cs : List Call) : Prop := ∀ c ∈ cs, c = a ∨ c = b

instance (a b : Call) (cs : List Call) : Decidable (OnlyCalls a b cs) := by
  unfold OnlyCalls; exact inferInstance

/-! ## Operations of an `EntityBase<T>` object

The member functions inherited from `RefCount<T>` act on the base subobject. -/

namespace EntityBase

/-- Inherited `RefCount<T>::addRef`. -/
def addRef (e : EntityBase) : Int × EntityBase :=
  ((RefCount.addRef e.base).1, { e with base := (RefCount.addRef e.base).2 })

/-- Inherited `RefCount<T>::release`. -/
def release (e : EntityBase) : Int × EntityBase :=
  ((RefCount.release e.base).1, { e with base := (RefCount.release e.base).2 })

/-- Inherited `RefCount<T>::getRef`. -/
def getRef (e : EntityBase) : Int × EntityBase :=
  ((RefCount.getRef e.base).1, { e with base := (RefCount.getRef e.base).2 })

/-- Inherited `RefCount<T>::addRefInternal`. -/
def addRefInternal (e : EntityBase) : Int × EntityBase :=
  ((RefCount.addRefInternal e.base).1, { e with base := (RefCount.addRefInternal e.base).2 })

/-- Inherited `RefCount<T>::releaseInternal`. -/
def releaseInternal (e : EntityBase) : Int × EntityBase :=
  ((RefCount.releaseInternal e.base).1, { e with base := (RefCount.releaseInternal e.base).2 })

/-- Inherited `RefCount<T>::getRefInternal`. -/
def getRefInternal (e : EntityBase) : Int × EntityBase :=
  ((RefCount.getRefInternal e.base).1, { e with base := (RefCount.getRefInternal e.base).2 })

/-- Inherited `RefCount<T>::setName`. -/
def setName (e : EntityBase) (v : String) : EntityBase :=
  { e with base := RefCount.setName e.base v }

/-- Inherited `RefCount<T>::getName`. -/
def getName (e : EntityBase) : String := RefCount.getName e.base

end EntityBase

/-- The member functions that can be called on an entity. -/
inductive EntityOp where
  | markDirty (v : DirtyFlag)
  | clearDirty
  | isDirty (v : DirtyFlag)
  | addRef
  | release
  | getRef
  | addRefInternal
  | releaseInternal
  | getRefInternal
  | setName (v : String)
  | getName
  deriving DecidableEq, Repr

/-- State of the entity after one member function call. -/
def EntityOp.apply : EntityOp → EntityBase → EntityBase
  | .markDirty v, e => e.markDirty v
  | .clearDirty, e => e.clearDirty
  | .isDirty _, e => e
  | .addRef, e => e.addRef.2
  | .release, e => e.release.2
  | .getRef, e => e.getRef.2
  | .addRefInternal, e => e.addRefInternal.2
  | .releaseInternal, e => e.releaseInternal.2
  | .getRefInternal, e => e.getRefInternal.2
  | .setName v, e => e.setName v
  | .getName, e => e

/-- State of the entity after a sequence of calls. A call is only applied to an object that
is still alive. -/
def runOps : EntityBase → List EntityOp → EntityBase
  | e, [] => e
  | e, op :: ops => if e.base.alive then runOps (op.apply e) ops else e

/-! ## Lists of dirty categories -/

/-- The sixteen single-category enumerators of `DirtyFlag`. -/
def DirtyFlag.elementary : List DirtyFlag :=
  [DirtyFlag.Transform, DirtyFlag.Blendshape, DirtyFlag.Joints, DirtyFlag.Indices,
   DirtyFlag.Points, DirtyFlag.Normals, DirtyFlag.Tangents, DirtyFlag.UV, DirtyFlag.Camera,
   DirtyFlag.Light, DirtyFlag.RenderTarget, DirtyFlag.Texture, DirtyFlag.TextureData,
   DirtyFlag.Material, DirtyFlag.Mesh, DirtyFlag.Instance]

/-- Every enumerator of `DirtyFlag`. -/
def DirtyFlag.enumerators : List DirtyFlag :=
  DirtyFlag.None :: DirtyFlag.elementary
    ++ [DirtyFlag.Deform, DirtyFlag.Shape, DirtyFlag.Vertices, DirtyFlag.SceneEntities,
        DirtyFlag.Any]

/-! # Properties -/

/-! ## 32-bit arithmetic -/

theorem wrapInt32_of_isInt32 {x : Int} (h : IsInt32 x) : wrapInt32 x = x := by
  unfold IsInt32 INT_MIN INT_MAX at h
  unfold wrapInt32
  omega

theorem isInt32_wrapInt32 (x : Int) : IsInt32 (wrapInt32 x) := by
  unfold IsInt32 INT_MIN INT_MAX wrapInt32
  omega

theorem wrapInt32_pred_eq_zero_iff {n : Int} (h : IsInt32 n) :
    wrapInt32 (n - 1) = 0 ↔ n = 1 := by
  unfold IsInt32 INT_MIN INT_MAX at h
  unfold wrapInt32
  omega

theorem wrapInt32_pred {n : Int} (h : IsInt32 n) (hmin : INT_MIN < n) :
    wrapInt32 (n - 1) = n - 1 := by
  unfold IsInt32 INT_MIN INT_MAX at h
  unfold INT_MIN at hmin
  unfold wrapInt32
  omega

theorem wrapInt32_pred_min : wrapInt32 (INT_MIN - 1) = INT_MAX := by
  decide

/-! ## Reference counting -/

/-- C1: on a live entity whose internal count is `n`, `releaseInternal()` stores and
returns the decremented count, which is `n - 1` for every `n` above `INT_MIN` (at
`INT_MIN` the 32-bit atomic decrement wraps to `INT_MAX`); the entity is destroyed
if and only if the new count is `0`, that is if and only if `n = 1`, and for every
other `n` it stays alive. -/
theorem releaseInternal_destroys_iff_one (s : RefCount) (hlive : s.alive = true)
    (hn : IsInt32 s.m_ref_internal) :
    (RefCount.releaseInternal s).2.m_ref_internal = (RefCount.releaseInternal s).1 ∧
    (INT_MIN < s.m_ref_internal → (RefCount.releaseInternal s).1 = s.m_ref_internal - 1) ∧
    (s.m_ref_internal = INT_MIN → (RefCount.releaseInternal s).1 = INT_MAX) ∧
    ((RefCount.releaseInternal s).2.alive = false ↔ (RefCount.releaseInternal s).1 = 0) ∧
    ((RefCount.releaseInternal s).2.alive = false ↔ s.m_ref_internal - 1 = 0) ∧
    ((RefCount.releaseInternal s).2.alive = false ↔ s.m_ref_internal = 1) ∧
    (s.m_ref_internal ≠ 1 → (RefCount.releaseInternal s).2.alive = true) := by
  have hz := wrapInt32_pred_eq_zero_iff hn
  have key : (RefCount.releaseInternal s).2.alive = false ↔
      wrapInt32 (s.m_ref_internal - 1) = 0 := by
    unfold RefCount.releaseInternal
    by_cases h0 : wrapInt32 (s.m_ref_internal - 1) = 0
    · simp [h0]
    · simp [h0, hlive]
  have hret : (RefCount.releaseInternal s).1 = wrapInt32 (s.m_ref_internal - 1) := rfl
  refine ⟨?_, ?_, ?_, ?_, ?_, ?_, ?_⟩
  · unfold RefCount.releaseInternal
    by_cases h0 : wrapInt32 (s.m_ref_internal - 1) = 0 <;> simp [h0]
  · intro hmin
    rw [hret]
    exact wrapInt32_pred hn hmin
  · intro hmin
    rw [hret, hmin]
    exact wrapInt32_pred_min
  · rw [hret]
    exact key
  · exact (key.trans hz).trans ⟨fun h => by omega, fun h => by omega⟩
  · exact key.trans hz
  · intro hne
    cases hal : (RefCount.releaseInternal s).2.alive with
    | true => rfl
    | false => exact absurd ((key.trans hz).mp hal) hne

theorem releaseInternal_destroys_iff_one_witness :
    (RefCount.mk 0 1 "" 0 true).alive = true ∧ IsInt32 (RefCount.mk 0 1 "" 0 true).m_ref_internal ∧
    (RefCount.releaseInternal (RefCount.mk 0 1 "" 0 true)).1 = 0 ∧
    (RefCount.releaseInternal (RefCount.mk 0 1 "" 0 true)).2.alive = false ∧
    (RefCount.mk 0 2 "" 0 true).alive = true ∧ IsInt32 (RefCount.mk 0 2 "" 0 true).m_ref_internal ∧
    (RefCount.releaseInternal (RefCount.mk 0 2 "" 0 true)).1 = 1 ∧
    (RefCount.releaseInternal (RefCount.mk 0 2 "" 0 true)).2.alive = true :=
  ⟨rfl, by decide,
   (releaseInternal_destroys_iff_one (RefCount.mk 0 1 "" 0 true) rfl (by decide)).2.1
     (by decide),
   (releaseInternal_destroys_iff_one (RefCount.mk 0 1 "" 0 true) rfl
     (by decide)).2.2.2.2.2.1.mpr rfl,
   rfl, by decide,
   (releaseInternal_destroys_iff_one (RefCount.mk 0 2 "" 0 true) rfl (by decide)).2.1
     (by decide),
   (releaseInternal_destroys_iff_one (RefCount.mk 0 2 "" 0 true) rfl (by decide)).2.2.2.2.2.2
     (by decide)⟩

/-- C2: on a live entity with external count `e`, `release()` stores and returns the
decremented count, which is `e - 1` for every `e` above `INT_MIN` (at `INT_MIN` the
32-bit atomic decrement wraps to `INT_MAX`); it never destroys the entity and leaves
the internal count, the name and the dirty word as they were, in particular when the
last external reference goes (`e = 1`) while the internal count is positive. -/
theorem release_never_destroys (s : RefCount) (hlive : s.alive = true)
    (he : IsInt32 s.m_ref_external) :
    (RefCount.release s).2.m_ref_external = (RefCount.release s).1 ∧
    (INT_MIN < s.m_ref_external → (RefCount.release s).1 = s.m_ref_external - 1) ∧
    (s.m_ref_external = INT_MIN → (RefCount.release s).1 = INT_MAX) ∧
    (RefCount.release s).2.alive = true ∧
    (RefCount.release s).2.m_ref_internal = s.m_ref_internal ∧
    (RefCount.release s).2.m_name = s.m_name ∧
    (RefCount.release s).2.m_dirty_flags = s.m_dirty_flags ∧
    (s.m_ref_external = 1 → 0 < s.m_ref_internal →
      (RefCount.release s).1 = 0 ∧ (RefCount.release s).2.alive = true ∧
      (RefCount.release s).2 = { s with m_ref_external := 0 }) := by
  have hret : (RefCount.release s).1 = wrapInt32 (s.m_ref_external - 1) := rfl
  refine ⟨rfl, ?_, ?_, hlive, rfl, rfl, rfl, ?_⟩
  · intro hmin
    rw [hret]
    exact wrapInt32_pred he hmin
  · intro hmin
    rw [hret, hmin]
    exact wrapInt32_pred_min
  · intro h1 _
    have h0 : wrapInt32 (s.m_ref_external - 1) = 0 := by rw [h1]; decide
    refine ⟨hret.trans h0, hlive, ?_⟩
    unfold RefCount.release
    simp [h0]

theorem release_never_destroys_witness :
    (RefCount.mk 1 1 "" 0 true).alive = true ∧ IsInt32 (RefCount.mk 1 1 "" 0 true).m_ref_external ∧
    (RefCount.release (RefCount.mk 1 1 "" 0 true)).1 = 0 ∧
    (RefCount.release (RefCount.mk 1 1 "" 0 true)).2.alive = true ∧
    (RefCount.release (RefCount.mk 1 1 "" 0 true)).2 = RefCount.mk 0 1 "" 0 true :=
  ⟨rfl, by decide,
   ((release_never_destroys (RefCount.mk 1 1 "" 0 true) rfl (by decide)).2.2.2.2.2.2.2
     rfl (by decide)).1,
   (release_never_destroys (RefCount.mk 1 1 "" 0 true) rfl (by decide)).2.2.2.1,
   ((release_never_destroys (RefCount.mk 1 1 "" 0 true) rfl (by decide)).2.2.2.2.2.2.2
     rfl (by decide)).2.2⟩

/-! ### Call sequences -/

theorem releaseInternal_external (s : RefCount) :
    (RefCount.releaseInternal s).2.m_ref_external = s.m_ref_external := by
  unfold RefCount.releaseInternal
  by_cases h0 : wrapInt32 (s.m_ref_internal - 1) = 0 <;> simp [h0]

theorem releaseInternal_internal (s : RefCount) :
    (RefCount.releaseInternal s).2.m_ref_internal = wrapInt32 (s.m_ref_internal - 1) := by
  unfold RefCount.releaseInternal
  by_cases h0 : wrapInt32 (s.m_ref_internal - 1) = 0 <;> simp [h0]

/-- Counting an element in a non-empty prefix of a non-empty sequence. -/
theorem count_take_succ_cons (x c : Call) (cs : List Call) (k : Nat) :
    ((c :: cs).take (k + 1)).count x = (if c = x then 1 else 0) + (cs.take k).count x := by
  by_cases h : c = x
  · subst h
    simp [Nat.add_comm]
  · have h2 : ¬ (c == x) = true := by simpa using h
    simp [List.take_succ_cons, List.count_cons, h, h2]

/-- Both counters after a run are the starting values plus the net number of
acquisitions of some non-empty prefix, as long as the counters cannot wrap. -/
theorem runCalls_counts (cs : List Call) :
    ∀ s : RefCount,
      INT_MIN ≤ s.m_ref_external - cs.length → s.m_ref_external + cs.length ≤ INT_MAX →
      INT_MIN ≤ s.m_ref_internal - cs.length → s.m_ref_internal + cs.length ≤ INT_MAX →
      ∀ t ∈ runCalls s cs, ∃ k, k ≤ cs.length ∧
        t.m_ref_external = s.m_ref_external + ((cs.take k).count Call.addRef : Int)
          - ((cs.take k).count Call.release : Int) ∧
        t.m_ref_internal = s.m_ref_internal + ((cs.take k).count Call.addRefInternal : Int)
          - ((cs.take k).count Call.releaseInternal : Int) := by
  induction cs with
  | nil => intro s _ _ _ _ t ht; simp [runCalls] at ht
  | cons c cs ih =>
    intro s h1 h2 h3 h4 t ht
    simp only [List.length_cons, Nat.cast_add, Nat.cast_one] at h1 h2 h3 h4
    unfold INT_MIN at h1 h3
    unfold INT_MAX at h2 h4
    have step : (c.apply s).m_ref_external
          = s.m_ref_external + (if c = Call.addRef then 1 else 0)
            - (if c = Call.release then 1 else 0) ∧
        (c.apply s).m_ref_internal
          = s.m_ref_internal + (if c = Call.addRefInternal then 1 else 0)
            - (if c = Call.releaseInternal then 1 else 0) := by
      cases c
      · have hw : wrapInt32 (s.m_ref_external + 1) = s.m_ref_external + 1 :=
          wrapInt32_of_isInt32 (by unfold IsInt32 INT_MIN INT_MAX; omega)
        simp [Call.apply, RefCount.addRef, hw]
      · have hw : wrapInt32 (s.m_ref_external - 1) = s.m_ref_external - 1 :=
          wrapInt32_of_isInt32 (by unfold IsInt32 INT_MIN INT_MAX; omega)
        simp [Call.apply, RefCount.release, hw]
      · have hw : wrapInt32 (s.m_ref_internal + 1) = s.m_ref_internal + 1 :=
          wrapInt32_of_isInt32 (by unfold IsInt32 INT_MIN INT_MAX; omega)
        simp [Call.apply, RefCount.addRefInternal, hw]
      · have hw : wrapInt32 (s.m_ref_internal - 1) = s.m_ref_internal - 1 :=
          wrapInt32_of_isInt32 (by unfold IsInt32 INT_MIN INT_MAX; omega)
        simp [Call.apply, releaseInternal_external, releaseInternal_internal, hw]
    unfold runCalls at ht
    by_cases hal : s.alive = true
    · simp only [hal, if_true, List.mem_cons] at ht
      rcases ht with ht | ht
      · refine ⟨1, by simp, ?_, ?_⟩
        · rw [ht, count_take_succ_cons, count_take_succ_cons, step.1]
          simp
        · rw [ht, count_take_succ_cons, count_take_succ_cons, step.2]
          simp
      · have hb1 : (if c = Call.addRef then (1 : Int) else 0) ≤ 1 := by split <;> omega
        have hb2 : (0 : Int) ≤ (if c = Call.addRef then (1 : Int) else 0) := by split <;> omega
        have hb3 : (if c = Call.release then (1 : Int) else 0) ≤ 1 := by split <;> omega
        have hb4 : (0 : Int) ≤ (if c = Call.release then (1 : Int) else 0) := by split <;> omega
        have hb5 : (if c = Call.addRefInternal then (1 : Int) else 0) ≤ 1 := by split <;> omega
        have hb6 : (0 : Int) ≤ (if c = Call.addRefInternal then (1 : Int) else 0) := by
          split <;> omega
        have hb7 : (if c = Call.releaseInternal then (1 : Int) else 0) ≤ 1 := by split <;> omega
        have hb8 : (0 : Int) ≤ (if c = Call.releaseInternal then (1 : Int) else 0) := by
          split <;> omega
        obtain ⟨k, hk, hke, hki⟩ := ih (c.apply s)
          (by unfold INT_MIN; rw [step.1]; omega) (by unfold INT_MAX; rw [step.1]; omega)
          (by unfold INT_MIN; rw [step.2]; omega) (by unfold INT_MAX; rw [step.2]; omega) t ht
        refine ⟨k + 1, by simp [hk], ?_, ?_⟩
        · rw [hke, step.1, count_take_succ_cons, count_take_succ_cons]
          push_cast
          split <;> split <;> omega
        · rw [hki, step.2, count_take_succ_cons, count_take_succ_cons]
          push_cast
          split <;> split <;> omega
    · simp [hal] at ht

/-- C3 (as stated, refuted): a single `release()` on a fresh entity leaves the external
count at `-1`, a single `releaseInternal()` leaves the internal count at `-1` with the
entity still alive; so the counts are not non-negative after every call sequence. -/
theorem refcount_nonneg_counterexample :
    runCalls RefCount.init [Call.release] = [{ RefCount.init with m_ref_external := -1 }] ∧
    runCalls RefCount.init [Call.releaseInternal]
      = [{ RefCount.init with m_ref_internal := -1 }] ∧
    ¬ (∀ cs : List Call, ∀ t ∈ runCalls RefCount.init cs,
        0 ≤ t.m_ref_external ∧ 0 ≤ t.m_ref_internal) := by
  refine ⟨by decide, by decide, ?_⟩
  intro h
  have h1 := h [Call.release] { RefCount.init with m_ref_external := -1 } (by decide)
  exact absurd h1.1 (by decide)

/-- C3 (amended): for an entity whose counts start at `0` and any sequence of fewer than
`2^31` `addRef` / `release` / `addRefInternal` / `releaseInternal` calls applied while it
is alive, in which no prefix holds more `release` than `addRef` calls nor more
`releaseInternal` than `addRefInternal` calls, both counts are non-negative after
every call. -/
theorem refcount_nonneg_of_balanced (cs : List Call) (hlen : cs.length < 2147483648)
    (hext : Balanced Call.addRef Call.release cs)
    (hint : Balanced Call.addRefInternal Call.releaseInternal cs) :
    ∀ t ∈ runCalls RefCount.init cs, 0 ≤ t.m_ref_external ∧ 0 ≤ t.m_ref_internal := by
  intro t ht
  have hl : (cs.length : Int) < 2147483648 := by exact_mod_cast hlen
  obtain ⟨k, hk, hke, hki⟩ := runCalls_counts cs RefCount.init
    (by unfold INT_MIN; simp only [RefCount.init]; omega)
    (by unfold INT_MAX; simp only [RefCount.init]; omega)
    (by unfold INT_MIN; simp only [RefCount.init]; omega)
    (by unfold INT_MAX; simp only [RefCount.init]; omega) t ht
  have h1 := hext k hk
  have h2 := hint k hk
  have h1z : ((cs.take k).count Call.release : Int) ≤ ((cs.take k).count Call.addRef : Int) := by
    exact_mod_cast h1
  have h2z : ((cs.take k).count Call.releaseInternal : Int)
      ≤ ((cs.take k).count Call.addRefInternal : Int) := by
    exact_mod_cast h2
  simp only [RefCount.init] at hke hki
  constructor <;> omega

theorem refcount_nonneg_of_balanced_witness :
    [Call.addRef, Call.addRefInternal, Call.release].length < 2147483648 ∧
    Balanced Call.addRef Call.release [Call.addRef, Call.addRefInternal, Call.release] ∧
    Balanced Call.addRefInternal Call.releaseInternal
      [Call.addRef, Call.addRefInternal, Call.release] ∧
    ∀ t ∈ runCalls RefCount.init [Call.addRef, Call.addRefInternal, Call.release],
      0 ≤ t.m_ref_external ∧ 0 ≤ t.m_ref_internal :=
  ⟨by decide, by decide, by decide,
   refcount_nonneg_of_balanced [Call.addRef, Call.addRefInternal, Call.release]
     (by decide) (by decide) (by decide)⟩

/-! ## Dirty flags -/

theorem and_ne_zero_of_testBit {x y : Nat} (i : Nat) (hx : x.testBit i = true)
    (hy : y.testBit i = true) : x &&& y ≠ 0 := by
  intro h
  have h2 := congrArg (fun z => Nat.testBit z i) h
  simp [Nat.testBit_and, hx, hy] at h2

theorem and_ne_zero_iff_testBit (x y : Nat) :
    x &&& y ≠ 0 ↔ ∃ i, x.testBit i = true ∧ y.testBit i = true := by
  constructor
  · intro h
    obtain ⟨i, hi⟩ := Nat.ne_zero_implies_bit_true h
    rw [Nat.testBit_and, Bool.and_eq_true] at hi
    exact ⟨i, hi⟩
  · rintro ⟨i, hx, hy⟩
    exact and_ne_zero_of_testBit i hx hy

theorem isDirty_eq_true_iff (e : EntityBase) (q : DirtyFlag) :
    e.isDirty q = true ↔ e.m_dirty_flags &&& q ≠ 0 := by
  simp [EntityBase.isDirty]

theorem isDirty_eq_false_iff (e : EntityBase) (q : DirtyFlag) :
    e.isDirty q = false ↔ e.m_dirty_flags &&& q = 0 := by
  simp [EntityBase.isDirty]

theorem and_any_of_isUInt32 {m : Nat} (h : IsUInt32 m) : m &&& DirtyFlag.Any = m := by
  have h1 := Nat.and_pow_two_sub_one_eq_mod m 32
  have h2 : (2 : Nat) ^ 32 - 1 = DirtyFlag.Any := by decide
  have h3 : (2 : Nat) ^ 32 = 4294967296 := by decide
  rw [h2, h3] at h1
  rw [h1]
  exact Nat.mod_eq_of_lt h

theorem isDirty_markDirty_of_testBit (e : EntityBase) (f q : DirtyFlag) (i : Nat)
    (hf : f.testBit i = true) (hq : q.testBit i = true) :
    (e.markDirty f).isDirty q = true := by
  rw [isDirty_eq_true_iff]
  apply and_ne_zero_of_testBit i _ hq
  simp [EntityBase.markDirty, Nat.testBit_or, hf]

/-- C4 (as stated, refuted): a default-constructed `Camera`, `Light`, `Material`, `Mesh`
or `Scene` answers `isDirty()` with `false`. -/
theorem fresh_entity_dirty_counterexample :
    (Camera.new float4.zero).entity.isDirty = false ∧
    (Light.new ⟨0, 0, 0⟩).entity.isDirty = false ∧
    Material.new.entity.isDirty = false ∧
    Mesh.new.entity.isDirty = false ∧
    (Scene.new 0 0 0 0 float4.zero (fun _ => ⟨0, 0, 0⟩)).entity.isDirty = false := by
  refine ⟨?_, ?_, ?_, ?_, ?_⟩ <;> rfl

/-- C4 (amended): a default-constructed `Camera`, `Light`, `Material`, `Mesh` or `Scene`,
before any setter or `markDirty` call, has the empty dirty mask `0`: `isDirty(q)` is
false for every query `q`, the default `Any` included. -/
theorem fresh_entity_clean :
    (∀ p q, (Camera.new p).entity.m_dirty_flags = 0 ∧ (Camera.new p).entity.isDirty q = false ∧
      (Camera.new p).entity.isDirty = false) ∧
    (∀ p q, (Light.new p).entity.m_dirty_flags = 0 ∧ (Light.new p).entity.isDirty q = false ∧
      (Light.new p).entity.isDirty = false) ∧
    (∀ q, Material.new.entity.m_dirty_flags = 0 ∧ Material.new.entity.isDirty q = false ∧
      Material.new.entity.isDirty = false) ∧
    (∀ q, Mesh.new.entity.m_dirty_flags = 0 ∧ Mesh.new.entity.isDirty q = false ∧
      Mesh.new.entity.isDirty = false) ∧
    (∀ rf lc so st p pad q,
      (Scene.new rf lc so st p pad).entity.m_dirty_flags = 0 ∧
      (Scene.new rf lc so st p pad).entity.isDirty q = false ∧
      (Scene.new rf lc so st p pad).entity.isDirty = false) := by
  have h : ∀ q, EntityBase.init.isDirty q = false := by
    intro q
    simp [EntityBase.isDirty, EntityBase.init]
  refine ⟨?_, ?_, ?_, ?_, ?_⟩
  · intro p q; exact ⟨rfl, h q, h _⟩
  · intro p q; exact ⟨rfl, h q, h _⟩
  · intro q; exact ⟨rfl, h q, h _⟩
  · intro q; exact ⟨rfl, h q, h _⟩
  · intro rf lc so st p pad q; exact ⟨rfl, h q, h _⟩

/-- C5: `markDirty(f)` sets the mask to exactly `m | f`, the bitwise OR (bit `i` of the
result is bit `i` of `m` or bit `i` of `f`, and the result is a 32-bit word when `m` and
`f` are); every bit set before is set after, and every query `q` with `isDirty(q)` true
before is still true after one or any number of further `markDirty` calls. -/
theorem markDirty_monotone (e : EntityBase) (f : DirtyFlag) :
    (e.markDirty f).m_dirty_flags = e.m_dirty_flags ||| f ∧
    (∀ i, (e.markDirty f).m_dirty_flags.testBit i = (e.m_dirty_flags.testBit i || f.testBit i)) ∧
    (IsUInt32 e.m_dirty_flags → IsUInt32 f → IsUInt32 (e.markDirty f).m_dirty_flags) ∧
    (∀ i, e.m_dirty_flags.testBit i = true → (e.markDirty f).m_dirty_flags.testBit i = true) ∧
    (e.m_dirty_flags &&& (e.markDirty f).m_dirty_flags = e.m_dirty_flags) ∧
    (∀ q, e.isDirty q = true → (e.markDirty f).isDirty q = true) ∧
    (∀ (fs : List DirtyFlag) q, e.isDirty q = true →
      (fs.foldl EntityBase.markDirty e).isDirty q = true) := by
  have hmono : ∀ (e : EntityBase) (f q : DirtyFlag), e.isDirty q = true →
      (e.markDirty f).isDirty q = true := by
    intro e f q hq
    rw [isDirty_eq_true_iff, and_ne_zero_iff_testBit] at hq ⊢
    obtain ⟨i, hm, hqi⟩ := hq
    exact ⟨i, by simp [EntityBase.markDirty, Nat.testBit_or, hm], hqi⟩
  refine ⟨rfl, ?_, ?_, ?_, ?_, hmono e f, ?_⟩
  · intro i
    simp [EntityBase.markDirty, Nat.testBit_or]
  · intro hm hf
    unfold IsUInt32 at hm hf ⊢
    have h3 : (2 : Nat) ^ 32 = 4294967296 := by decide
    rw [← h3] at hm hf ⊢
    exact Nat.or_lt_two_pow hm hf
  · intro i hi
    simp [EntityBase.markDirty, Nat.testBit_or, hi]
  · apply Nat.eq_of_testBit_eq
    intro i
    simp only [EntityBase.markDirty, Nat.testBit_and, Nat.testBit_or]
    cases e.m_dirty_flags.testBit i <;> simp
  · intro fs
    induction fs generalizing e with
    | nil => intro q hq; exact hq
    | cons g gs ih =>
      intro q hq
      exact ih (e.markDirty g) q (hmono e g q hq)

theorem markDirty_monotone_witness :
    IsUInt32 0x20 ∧ IsUInt32 0x01 ∧
    (EntityBase.markDirty { EntityBase.init with m_dirty_flags := 0x20 } 0x01).m_dirty_flags
      = 0x21 ∧
    IsUInt32 (EntityBase.markDirty { EntityBase.init with m_dirty_flags := 0x20 } 0x01).m_dirty_flags
      ∧
    EntityBase.isDirty { EntityBase.init with m_dirty_flags := 0x20 } DirtyFlag.Points = true ∧
    (EntityBase.markDirty { EntityBase.init with m_dirty_flags := 0x20 } 0x01).isDirty
      DirtyFlag.Points = true :=
  ⟨by decide, by decide,
   (markDirty_monotone { EntityBase.init with m_dirty_flags := 0x20 } 0x01).1,
   (markDirty_monotone { EntityBase.init with m_dirty_flags := 0x20 } 0x01).2.2.1
     (by decide) (by decide),
   by decide,
   (markDirty_monotone { EntityBase.init with m_dirty_flags := 0x20 } 0x01).2.2.2.2.2.1
     DirtyFlag.Points (by decide)⟩

/-- C6: `isDirty(q)` is true if and only if the bitwise AND of the dirty mask with `q` is
non-zero, that is if and only if some bit is set in both; for a 32-bit mask the default
query `Any` (`0xffffffff`) is true if and only if the mask is non-zero; and
`isDirty(None)` is false for every mask. -/
theorem isDirty_iff_and_ne_zero (e : EntityBase) :
    (∀ q, e.isDirty q = true ↔ e.m_dirty_flags &&& q ≠ 0) ∧
    (∀ q, e.isDirty q = true ↔ ∃ i, e.m_dirty_flags.testBit i = true ∧ q.testBit i = true) ∧
    (IsUInt32 e.m_dirty_flags → (e.isDirty = true ↔ e.m_dirty_flags ≠ 0)) ∧
    (IsUInt32 e.m_dirty_flags → (e.isDirty DirtyFlag.Any = true ↔ e.m_dirty_flags ≠ 0)) ∧
    DirtyFlag.Any = 0xffffffff ∧
    e.isDirty DirtyFlag.None = false := by
  have hany : IsUInt32 e.m_dirty_flags →
      (e.isDirty DirtyFlag.Any = true ↔ e.m_dirty_flags ≠ 0) := by
    intro h
    rw [isDirty_eq_true_iff, and_any_of_isUInt32 h]
  refine ⟨isDirty_eq_true_iff e, ?_, hany, hany, rfl, ?_⟩
  · intro q
    rw [isDirty_eq_true_iff, and_ne_zero_iff_testBit]
  · rw [isDirty_eq_false_iff]
    exact Nat.and_zero _

theorem isDirty_iff_and_ne_zero_witness :
    IsUInt32 0x40 ∧
    (EntityBase.isDirty { EntityBase.init with m_dirty_flags := 0x40 } = true ↔ 0x40 ≠ 0) ∧
    EntityBase.isDirty { EntityBase.init with m_dirty_flags := 0x40 } DirtyFlag.None = false :=
  ⟨by decide,
   (isDirty_iff_and_ne_zero { EntityBase.init with m_dirty_flags := 0x40 }).2.2.1 (by decide),
   (isDirty_iff_and_ne_zero { EntityBase.init with m_dirty_flags := 0x40 }).2.2.2.2.2⟩

/-- C7: for every dirty mask, `clearDirty()` leaves the mask `0`; a second `clearDirty()` in
a row changes nothing more (`clearDirty ∘ clearDirty = clearDirty`) and the mask is `0`
again; after a clear `isDirty(q)` is false for every query `q`, `Any` included. -/
theorem clearDirty_idempotent (e : EntityBase) :
    e.clearDirty.m_dirty_flags = 0 ∧
    e.clearDirty.clearDirty.m_dirty_flags = 0 ∧
    e.clearDirty.clearDirty = e.clearDirty ∧
    EntityBase.clearDirty ∘ EntityBase.clearDirty = EntityBase.clearDirty ∧
    (∀ q, e.clearDirty.isDirty q = false) ∧
    e.clearDirty.isDirty DirtyFlag.Any = false ∧
    e.clearDirty.isDirty = false ∧
    (∀ q, e.clearDirty.clearDirty.isDirty q = false) := by
  have h : ∀ (x : EntityBase) q, x.clearDirty.isDirty q = false := by
    intro x q
    simp [EntityBase.isDirty, EntityBase.clearDirty]
  exact ⟨rfl, rfl, rfl, rfl, h e, h e _, h e _, h e.clearDirty⟩

/-- C8: `Vertices = Indices | Points | Normals | Tangents | UV` (`0x1f0`) and
`Deform = Transform | Blendshape | Joints` (`0x7`); for every dirty mask, after
`markDirty(f)` with `f` among Indices, Points, Normals, Tangents, UV the query
`isDirty(Vertices)` is true, and after `markDirty(f)` with `f` among Transform,
Blendshape, Joints the query `isDirty(Deform)` is true. -/
theorem fine_category_marks_group (e : EntityBase) :
    DirtyFlag.Vertices = DirtyFlag.Indices ||| DirtyFlag.Points ||| DirtyFlag.Normals
      ||| DirtyFlag.Tangents ||| DirtyFlag.UV ∧
    DirtyFlag.Vertices = 0x1f0 ∧
    DirtyFlag.Deform = DirtyFlag.Transform ||| DirtyFlag.Blendshape ||| DirtyFlag.Joints ∧
    DirtyFlag.Deform = 0x7 ∧
    (∀ f ∈ [DirtyFlag.Indices, DirtyFlag.Points, DirtyFlag.Normals, DirtyFlag.Tangents,
        DirtyFlag.UV], (e.markDirty f).isDirty DirtyFlag.Vertices = true) ∧
    (∀ f ∈ [DirtyFlag.Transform, DirtyFlag.Blendshape, DirtyFlag.Joints],
      (e.markDirty f).isDirty DirtyFlag.Deform = true) := by
  refine ⟨rfl, by decide, rfl, by decide, ?_, ?_⟩
  · intro f hf
    simp only [List.mem_cons, List.mem_singleton, List.not_mem_nil, or_false] at hf
    rcases hf with h | h | h | h | h <;> subst h
    · exact isDirty_markDirty_of_testBit e _ _ 4 (by decide) (by decide)
    · exact isDirty_markDirty_of_testBit e _ _ 5 (by decide) (by decide)
    · exact isDirty_markDirty_of_testBit e _ _ 6 (by decide) (by decide)
    · exact isDirty_markDirty_of_testBit e _ _ 7 (by decide) (by decide)
    · exact isDirty_markDirty_of_testBit e _ _ 8 (by decide) (by decide)
  · intro f hf
    simp only [List.mem_cons, List.mem_singleton, List.not_mem_nil, or_false] at hf
    rcases hf with h | h | h <;> subst h
    · exact isDirty_markDirty_of_testBit e _ _ 0 (by decide) (by decide)
    · exact isDirty_markDirty_of_testBit e _ _ 1 (by decide) (by decide)
    · exact isDirty_markDirty_of_testBit e _ _ 2 (by decide) (by decide)

theorem fine_category_marks_group_witness :
    DirtyFlag.Points ∈ [DirtyFlag.Indices, DirtyFlag.Points, DirtyFlag.Normals,
      DirtyFlag.Tangents, DirtyFlag.UV] ∧
    (EntityBase.init.markDirty DirtyFlag.Points).isDirty DirtyFlag.Vertices = true ∧
    DirtyFlag.Joints ∈ [DirtyFlag.Transform, DirtyFlag.Blendshape, DirtyFlag.Joints] ∧
    (EntityBase.init.markDirty DirtyFlag.Joints).isDirty DirtyFlag.Deform = true :=
  ⟨by decide,
   (fine_category_marks_group EntityBase.init).2.2.2.2.1 DirtyFlag.Points (by decide),
   by decide,
   (fine_category_marks_group EntityBase.init).2.2.2.2.2 DirtyFlag.Joints (by decide)⟩

/-- C9 (as stated, refuted): starting from a clean entity, after `markDirty(Vertices)` the
query `isDirty(Points)` returns true. -/
theorem coarse_mark_counterexample :
    EntityBase.init.clearDirty.m_dirty_flags = 0 ∧
    (EntityBase.init.clearDirty.markDirty DirtyFlag.Vertices).isDirty DirtyFlag.Points = true ∧
    ¬ ((EntityBase.init.clearDirty.markDirty DirtyFlag.Vertices).isDirty DirtyFlag.Points
        = false) := by
  refine ⟨rfl, by decide, by decide⟩

/-- C9 (amended): marking the coarser category does make every finer category it contains
report dirty: for every mask, after `markDirty(Vertices)` the queries `isDirty(Indices)`,
`isDirty(Points)`, `isDirty(Normals)`, `isDirty(Tangents)` and `isDirty(UV)` are true.
What fails in the reverse direction is the implication between queries: on a clean
entity after `markDirty(Normals)`, `isDirty(Vertices)` is true while `isDirty(Points)`
is false. -/
theorem coarse_mark_marks_fine (e : EntityBase) :
    (e.markDirty DirtyFlag.Vertices).isDirty DirtyFlag.Indices = true ∧
    (e.markDirty DirtyFlag.Vertices).isDirty DirtyFlag.Points = true ∧
    (e.markDirty DirtyFlag.Vertices).isDirty DirtyFlag.Normals = true ∧
    (e.markDirty DirtyFlag.Vertices).isDirty DirtyFlag.Tangents = true ∧
    (e.markDirty DirtyFlag.Vertices).isDirty DirtyFlag.UV = true ∧
    (e.clearDirty.markDirty DirtyFlag.Normals).isDirty DirtyFlag.Vertices = true ∧
    (e.clearDirty.markDirty DirtyFlag.Normals).isDirty DirtyFlag.Points = false := by
  refine ⟨?_, ?_, ?_, ?_, ?_, ?_, ?_⟩
  · exact isDirty_markDirty_of_testBit e _ _ 4 (by decide) (by decide)
  · exact isDirty_markDirty_of_testBit e _ _ 5 (by decide) (by decide)
  · exact isDirty_markDirty_of_testBit e _ _ 6 (by decide) (by decide)
  · exact isDirty_markDirty_of_testBit e _ _ 7 (by decide) (by decide)
  · exact isDirty_markDirty_of_testBit e _ _ 8 (by decide) (by decide)
  · exact isDirty_markDirty_of_testBit _ _ _ 6 (by decide) (by decide)
  · rw [isDirty_eq_false_iff]
    simp only [EntityBase.markDirty, EntityBase.clearDirty]
    decide

/-! ## Record equality -/

theorem word32Bytes_inj {w v : Nat} (hw : IsUInt32 w) (hv : IsUInt32 v)
    (h : word32Bytes w = word32Bytes v) : w = v := by
  unfold IsUInt32 at hw hv
  simp only [word32Bytes, List.cons.injEq, and_true] at h
  omega

theorem wordsBytes_length (ws : List Nat) : (wordsBytes ws).length = 4 * ws.length := by
  induction ws with
  | nil => rfl
  | cons w ws ih => simp [wordsBytes, word32Bytes, ih]; omega

theorem wordsBytes_inj : ∀ (ws vs : List Nat), WordsOK ws → WordsOK vs →
    wordsBytes ws = wordsBytes vs → ws = vs := by
  intro ws
  induction ws with
  | nil =>
    intro vs _ _ h
    cases vs with
    | nil => rfl
    | cons v vs => simp [wordsBytes, word32Bytes] at h
  | cons w ws ih =>
    intro vs hws hvs h
    cases vs with
    | nil => simp [wordsBytes, word32Bytes] at h
    | cons v vs =>
      have hl : (word32Bytes w).length = (word32Bytes v).length := rfl
      have hsplit := List.append_inj h hl
      have hw : IsUInt32 w := hws w (List.mem_cons_self _ _)
      have hv : IsUInt32 v := hvs v (List.mem_cons_self _ _)
      have hws2 : WordsOK ws := fun x hx => hws x (List.mem_cons_of_mem _ hx)
      have hvs2 : WordsOK vs := fun x hx => hvs x (List.mem_cons_of_mem _ hx)
      rw [word32Bytes_inj hw hv hsplit.1, ih vs hws2 hvs2 hsplit.2]

theorem memcmp_eq_zero_iff : ∀ (n : Nat) (xs ys : List Nat), xs.length = n → ys.length = n →
    (memcmp xs ys n = some 0 ↔ xs = ys) := by
  intro n
  induction n with
  | zero =>
    intro xs ys hx hy
    have h1 : xs = [] := List.length_eq_zero.mp hx
    have h2 : ys = [] := List.length_eq_zero.mp hy
    subst h1 h2
    simp [memcmp]
  | succ n ih =>
    intro xs ys hx hy
    cases xs with
    | nil => simp at hx
    | cons x xs =>
      cases ys with
      | nil => simp at hy
      | cons y ys =>
        simp only [List.length_cons, Nat.add_right_cancel_iff] at hx hy
        by_cases hxy : x = y
        · subst hxy
          simp [memcmp, ih xs ys hx hy]
        · have hne : ((x : Int) - (y : Int)) ≠ 0 := by omega
          simp [memcmp, hxy, hne]

/-- Equality of byte images of two word sequences of the same length, as decided by
`memcmp` over the whole image. -/
theorem memcmp_wordsBytes_iff {ws vs : List Nat} {n : Nat} (hws : WordsOK ws) (hvs : WordsOK vs)
    (hl1 : 4 * ws.length = n) (hl2 : 4 * vs.length = n) :
    memcmp (wordsBytes ws) (wordsBytes vs) n = some 0 ↔ ws = vs := by
  rw [memcmp_eq_zero_iff n _ _ ((wordsBytes_length ws).trans hl1)
    ((wordsBytes_length vs).trans hl2)]
  constructor
  · exact wordsBytes_inj ws vs hws hvs
  · intro h; rw [h]

theorem float4x4_words_length (m : float4x4) : m.words.length = 16 := rfl

theorem CameraData_words_length (d : CameraData) : d.words.length = 44 := rfl

theorem LightData_words_length (d : LightData) : d.words.length = 16 := rfl

theorem MaterialData_words_length (d : MaterialData) : d.words.length = 12 := rfl

theorem InstanceData_words_length (d : InstanceData) : d.words.length = 36 := rfl

theorem lightsWords_length (ls : List LightData) : (lightsWords ls).length = 16 * ls.length := by
  induction ls with
  | nil => rfl
  | cons l ls ih =>
    simp only [lightsWords, List.length_append, LightData_words_length, ih, List.length_cons]
    omega

theorem SceneData_words_length (d : SceneData) :
    d.words.length = 48 + 16 * d.lights.length := by
  simp only [SceneData.words, List.length_append, CameraData_words_length, lightsWords_length,
    List.length_cons, List.length_nil]

theorem float4x4_words_inj {a b : float4x4} (h : a.words = b.words) : a = b := by
  obtain ⟨⟨_, _, _, _⟩, ⟨_, _, _, _⟩, ⟨_, _, _, _⟩, ⟨_, _, _, _⟩⟩ := a
  obtain ⟨⟨_, _, _, _⟩, ⟨_, _, _, _⟩, ⟨_, _, _, _⟩, ⟨_, _, _, _⟩⟩ := b
  simp only [float4x4.words, float4.words, List.cons_append, List.nil_append,
    List.cons.injEq, and_true] at h
  simp only [float4x4.mk.injEq, float4.mk.injEq]
  tauto

theorem CameraData_words_inj {a b : CameraData} (h : a.words = b.words) : a = b := by
  obtain ⟨v1, p1, ⟨_, _, _, _⟩, ⟨_, _, _, _⟩, _, _, _, _⟩ := a
  obtain ⟨v2, p2, ⟨_, _, _, _⟩, ⟨_, _, _, _⟩, _, _, _, _⟩ := b
  simp only [CameraData.words, List.append_assoc] at h
  obtain ⟨hv, h⟩ := List.append_inj h (by simp [float4x4_words_length])
  obtain ⟨hp, h⟩ := List.append_inj h (by simp [float4x4_words_length])
  simp only [float4.words, quatf.words, List.cons_append, List.nil_append,
    List.cons.injEq, and_true] at h
  rw [float4x4_words_inj hv, float4x4_words_inj hp]
  simp only [CameraData.mk.injEq, float4.mk.injEq, quatf.mk.injEq, true_and]
  tauto

theorem LightData_words_inj {a b : LightData} (h : a.words = b.words) : a = b := by
  obtain ⟨_, ⟨_, _, _⟩, ⟨_, _, _⟩, _, ⟨_, _, _⟩, _, ⟨_, _, _⟩, _⟩ := a
  obtain ⟨_, ⟨_, _, _⟩, ⟨_, _, _⟩, _, ⟨_, _, _⟩, _, ⟨_, _, _⟩, _⟩ := b
  simp only [LightData.words, uint32x3.words, float3.words, List.cons_append, List.nil_append,
    List.cons.injEq, and_true] at h
  simp only [LightData.mk.injEq, uint32x3.mk.injEq, float3.mk.injEq]
  tauto

theorem MaterialData_words_inj {a b : MaterialData} (h : a.words = b.words) : a = b := by
  obtain ⟨⟨_, _, _⟩, _, ⟨_, _, _⟩, _, _, _, ⟨_, _⟩⟩ := a
  obtain ⟨⟨_, _, _⟩, _, ⟨_, _, _⟩, _, _, _, ⟨_, _⟩⟩ := b
  simp only [MaterialData.words, int2.words, float3.words, List.cons_append, List.nil_append,
    List.cons.injEq, and_true] at h
  simp only [MaterialData.mk.injEq, int2.mk.injEq, float3.mk.injEq]
  tauto

theorem InstanceData_words_inj {a b : InstanceData} (h : a.words = b.words) : a = b := by
  obtain ⟨l1, w1, _, _, _, _⟩ := a
  obtain ⟨l2, w2, _, _, _, _⟩ := b
  simp only [InstanceData.words, List.append_assoc] at h
  obtain ⟨hl, h⟩ := List.append_inj h (by simp [float4x4_words_length])
  obtain ⟨hw, h⟩ := List.append_inj h (by simp [float4x4_words_length])
  simp only [List.cons.injEq, and_true] at h
  rw [float4x4_words_inj hl, float4x4_words_inj hw]
  simp only [InstanceData.mk.injEq, true_and]
  tauto

theorem lightsWords_inj : ∀ (xs ys : List LightData), lightsWords xs = lightsWords ys → xs = ys := by
  intro xs
  induction xs with
  | nil =>
    intro ys h
    cases ys with
    | nil => rfl
    | cons y ys =>
      have hlen := congrArg List.length h
      simp only [lightsWords, List.length_append, LightData_words_length,
        List.length_nil] at hlen
      omega
  | cons x xs ih =>
    intro ys h
    cases ys with
    | nil =>
      have hlen := congrArg List.length h
      simp only [lightsWords, List.length_append, LightData_words_length,
        List.length_nil] at hlen
      omega
    | cons y ys =>
      simp only [lightsWords] at h
      obtain ⟨h1, h2⟩ := List.append_inj h (by simp [LightData_words_length])
      rw [LightData_words_inj h1, ih ys h2]

theorem SceneData_words_inj {a b : SceneData} (h : a.words = b.words) : a = b := by
  obtain ⟨_, _, _, _, c1, l1⟩ := a
  obtain ⟨_, _, _, _, c2, l2⟩ := b
  simp only [SceneData.words, List.cons_append, List.nil_append, List.cons.injEq] at h
  obtain ⟨h1, h2, h3, h4, h⟩ := h
  obtain ⟨hc, hl⟩ := List.append_inj h (by simp [CameraData_words_length])
  rw [CameraData_words_inj hc, lightsWords_inj _ _ hl, h1, h2, h3, h4]

theorem CameraData_fieldsEq_iff (a b : CameraData) : CameraData.FieldsEq a b ↔ a = b := by
  cases a; cases b
  simp only [CameraData.FieldsEq, CameraData.mk.injEq]

theorem CameraData_eq_iff (a b : CameraData) (ha : a.WF) (hb : b.WF) : a.eq b = true ↔ a = b := by
  unfold CameraData.eq CameraData.bytes CameraData.sizeof
  rw [decide_eq_true_iff, memcmp_wordsBytes_iff ha hb (by rw [CameraData_words_length])
    (by rw [CameraData_words_length])]
  exact ⟨CameraData_words_inj, fun h => by rw [h]⟩

theorem LightData_fieldsEq_iff (a b : LightData) : LightData.FieldsEq a b ↔ a = b := by
  cases a; cases b
  simp only [LightData.FieldsEq, LightData.mk.injEq]

theorem LightData_eq_iff (a b : LightData) (ha : a.WF) (hb : b.WF) : a.eq b = true ↔ a = b := by
  unfold LightData.eq LightData.bytes LightData.sizeof
  rw [decide_eq_true_iff, memcmp_wordsBytes_iff ha hb (by rw [LightData_words_length])
    (by rw [LightData_words_length])]
  exact ⟨LightData_words_inj, fun h => by rw [h]⟩

theorem MaterialData_fieldsEq_iff (a b : MaterialData) : MaterialData.FieldsEq a b ↔ a = b := by
  cases a; cases b
  simp only [MaterialData.FieldsEq, MaterialData.mk.injEq]

theorem MaterialData_eq_iff (a b : MaterialData) (ha : a.WF) (hb : b.WF) : a.eq b = true ↔ a = b := by
  unfold MaterialData.eq MaterialData.bytes MaterialData.sizeof
  rw [decide_eq_true_iff, memcmp_wordsBytes_iff ha hb (by rw [MaterialData_words_length])
    (by rw [MaterialData_words_length])]
  exact ⟨MaterialData_words_inj, fun h => by rw [h]⟩

theorem InstanceData_fieldsEq_iff (a b : InstanceData) : InstanceData.FieldsEq a b ↔ a = b := by
  cases a; cases b
  simp only [InstanceData.FieldsEq, InstanceData.mk.injEq]

theorem InstanceData_eq_iff (a b : InstanceData) (ha : a.WF) (hb : b.WF) : a.eq b = true ↔ a = b := by
  unfold InstanceData.eq InstanceData.bytes InstanceData.sizeof
  rw [decide_eq_true_iff, memcmp_wordsBytes_iff ha hb (by rw [InstanceData_words_length])
    (by rw [InstanceData_words_length])]
  exact ⟨InstanceData_words_inj, fun h => by rw [h]⟩

theorem SceneData_fieldsEq_iff (a b : SceneData) : SceneData.FieldsEq a b ↔ a = b := by
  cases a; cases b
  simp only [SceneData.FieldsEq, SceneData.mk.injEq]

theorem SceneData_eq_iff (a b : SceneData) (ha : a.WF) (hb : b.WF) : a.eq b = true ↔ a = b := by
  unfold SceneData.eq SceneData.bytes SceneData.sizeof
  have hla : 4 * a.words.length = 2240 := by
    rw [SceneData_words_length, ha.2]; rfl
  have hlb : 4 * b.words.length = 2240 := by
    rw [SceneData_words_length, hb.2]; rfl
  rw [decide_eq_true_iff, memcmp_wordsBytes_iff ha.1 hb.1 hla hlb]
  exact ⟨SceneData_words_inj, fun h => by rw [h]⟩

/-- C10: for each of `CameraData`, `LightData`, `MaterialData`, `InstanceData` and
`SceneData` (all members, padding members included, kept as 32-bit patterns),
`a == b`, computed by `memcmp` over the byte images, is true if and only if every
field of `a` has the same bit pattern as the corresponding field of `b`, and `a != b`
is its negation; in particular records that differ in a padding member (`pad`, `pad1`,
`pad2`, `pad_tex`) compare unequal. Floats are compared by pattern, not numerically:
records differing only in `+0.0` against `-0.0` compare unequal, and a record holding a
NaN equals itself. -/
theorem record_eq_is_bitwise :
    (∀ a b : CameraData, a.WF → b.WF →
      (a.eq b = true ↔ CameraData.FieldsEq a b) ∧ (a.ne b = true ↔ ¬ CameraData.FieldsEq a b) ∧
      a.ne b = !a.eq b) ∧
    (∀ a b : LightData, a.WF → b.WF →
      (a.eq b = true ↔ LightData.FieldsEq a b) ∧ (a.ne b = true ↔ ¬ LightData.FieldsEq a b) ∧
      a.ne b = !a.eq b) ∧
    (∀ a b : MaterialData, a.WF → b.WF →
      (a.eq b = true ↔ MaterialData.FieldsEq a b) ∧ (a.ne b = true ↔ ¬ MaterialData.FieldsEq a b) ∧
      a.ne b = !a.eq b) ∧
    (∀ a b : InstanceData, a.WF → b.WF →
      (a.eq b = true ↔ InstanceData.FieldsEq a b) ∧ (a.ne b = true ↔ ¬ InstanceData.FieldsEq a b) ∧
      a.ne b = !a.eq b) ∧
    (∀ a b : SceneData, a.WF → b.WF →
      (a.eq b = true ↔ SceneData.FieldsEq a b) ∧ (a.ne b = true ↔ ¬ SceneData.FieldsEq a b) ∧
      a.ne b = !a.eq b) ∧
    (∀ a b : CameraData, a.WF → b.WF → a.pad ≠ b.pad → a.eq b = false) ∧
    (∀ a b : LightData, a.WF → b.WF → a.pad1 ≠ b.pad1 ∨ a.pad2 ≠ b.pad2 → a.eq b = false) ∧
    (∀ a b : MaterialData, a.WF → b.WF → a.pad_tex ≠ b.pad_tex → a.eq b = false) ∧
    (floatNumEq 0x00000000 0x80000000 = true ∧
      CameraData.eq { CameraData.init float4.zero with fov := 0x00000000 }
        { CameraData.init float4.zero with fov := 0x80000000 } = false) ∧
    (floatNumEq 0x7fc00000 0x7fc00000 = false ∧
      CameraData.eq { CameraData.init float4.zero with fov := 0x7fc00000 }
        { CameraData.init float4.zero with fov := 0x7fc00000 } = true) := by
  have hc : ∀ a b : CameraData, a.WF → b.WF → (a.eq b = true ↔ CameraData.FieldsEq a b) :=
    fun a b ha hb => (CameraData_eq_iff a b ha hb).trans (CameraData_fieldsEq_iff a b).symm
  have hl : ∀ a b : LightData, a.WF → b.WF → (a.eq b = true ↔ LightData.FieldsEq a b) :=
    fun a b ha hb => (LightData_eq_iff a b ha hb).trans (LightData_fieldsEq_iff a b).symm
  have hm : ∀ a b : MaterialData, a.WF → b.WF → (a.eq b = true ↔ MaterialData.FieldsEq a b) :=
    fun a b ha hb => (MaterialData_eq_iff a b ha hb).trans (MaterialData_fieldsEq_iff a b).symm
  have hi : ∀ a b : InstanceData, a.WF → b.WF → (a.eq b = true ↔ InstanceData.FieldsEq a b) :=
    fun a b ha hb => (InstanceData_eq_iff a b ha hb).trans (InstanceData_fieldsEq_iff a b).symm
  have hs : ∀ a b : SceneData, a.WF → b.WF → (a.eq b = true ↔ SceneData.FieldsEq a b) :=
    fun a b ha hb => (SceneData_eq_iff a b ha hb).trans (SceneData_fieldsEq_iff a b).symm
  refine ⟨?_, ?_, ?_, ?_, ?_, ?_, ?_, ?_, ⟨by decide, ?_⟩, ⟨by decide, ?_⟩⟩
  · intro a b ha hb
    refine ⟨hc a b ha hb, ?_, rfl⟩
    rw [← hc a b ha hb]; simp [CameraData.ne]
  · intro a b ha hb
    refine ⟨hl a b ha hb, ?_, rfl⟩
    rw [← hl a b ha hb]; simp [LightData.ne]
  · intro a b ha hb
    refine ⟨hm a b ha hb, ?_, rfl⟩
    rw [← hm a b ha hb]; simp [MaterialData.ne]
  · intro a b ha hb
    refine ⟨hi a b ha hb, ?_, rfl⟩
    rw [← hi a b ha hb]; simp [InstanceData.ne]
  · intro a b ha hb
    refine ⟨hs a b ha hb, ?_, rfl⟩
    rw [← hs a b ha hb]; simp [SceneData.ne]
  · intro a b ha hb hne
    rw [Bool.eq_false_iff]
    intro h
    exact hne ((hc a b ha hb).mp h).2.2.2.2.2.2.2
  · intro a b ha hb hne
    rw [Bool.eq_false_iff]
    intro h
    have hf := (hl a b ha hb).mp h
    rcases hne with hne | hne
    · exact hne hf.2.1
    · exact hne hf.2.2.2.2.2.2.2
  · intro a b ha hb hne
    rw [Bool.eq_false_iff]
    intro h
    exact hne ((hm a b ha hb).mp h).2.2.2.2.2.2
  · rw [Bool.eq_false_iff]
    intro h
    have h2 := (hc _ _ (by decide) (by decide)).mp h
    exact absurd h2 (by decide)
  · exact (hc _ _ (by decide) (by decide)).mpr (by decide)

set_option maxRecDepth 20000

theorem record_eq_is_bitwise_witness :
    (LightData.init ⟨0, 0, 0⟩).WF ∧ (LightData.init ⟨0, 0, 1⟩).WF ∧
    ((LightData.init ⟨0, 0, 0⟩).eq (LightData.init ⟨0, 0, 0⟩) = true ↔
      LightData.FieldsEq (LightData.init ⟨0, 0, 0⟩) (LightData.init ⟨0, 0, 0⟩)) ∧
    ((LightData.init ⟨0, 0, 0⟩).ne (LightData.init ⟨0, 0, 1⟩) = true ↔
      ¬ LightData.FieldsEq (LightData.init ⟨0, 0, 0⟩) (LightData.init ⟨0, 0, 1⟩)) ∧
    (SceneData.init 0 0 0 0 float4.zero (fun _ => ⟨0, 0, 0⟩)).WF ∧
    (SceneData.init 0 1 0 0 float4.zero (fun _ => ⟨0, 0, 0⟩)).WF ∧
    ((SceneData.init 0 0 0 0 float4.zero (fun _ => ⟨0, 0, 0⟩)).eq
        (SceneData.init 0 1 0 0 float4.zero (fun _ => ⟨0, 0, 0⟩)) = true ↔
      SceneData.FieldsEq (SceneData.init 0 0 0 0 float4.zero (fun _ => ⟨0, 0, 0⟩))
        (SceneData.init 0 1 0 0 float4.zero (fun _ => ⟨0, 0, 0⟩))) :=
  ⟨by decide, by decide,
   (record_eq_is_bitwise.2.1 (LightData.init ⟨0, 0, 0⟩) (LightData.init ⟨0, 0, 0⟩)
     (by decide) (by decide)).1,
   (record_eq_is_bitwise.2.1 (LightData.init ⟨0, 0, 0⟩) (LightData.init ⟨0, 0, 1⟩)
     (by decide) (by decide)).2.1,
   by decide, by decide,
   (record_eq_is_bitwise.2.2.2.2.1 (SceneData.init 0 0 0 0 float4.zero (fun _ => ⟨0, 0, 0⟩))
     (SceneData.init 0 1 0 0 float4.zero (fun _ => ⟨0, 0, 0⟩)) (by decide) (by decide)).1⟩

/-! ## Light iteration -/

theorem eachLightFrom_done {σ : Type} (body : Nat → SceneData × σ → SceneData × σ) (li : Nat)
    (st : SceneData × σ) (h : ¬ li < st.1.light_count) :
    SceneData.eachLightFrom body li st = { reads := [], final := some st } := by
  rw [SceneData.eachLightFrom, if_neg h]

theorem eachLightFrom_step {σ : Type} (body : Nat → SceneData × σ → SceneData × σ) (li : Nat)
    (st : SceneData × σ) (h : li < st.1.light_count) (hb : li < lptMaxLights) :
    SceneData.eachLightFrom body li st
      = { reads := li :: (SceneData.eachLightFrom body (li + 1) (body li st)).reads,
          final := (SceneData.eachLightFrom body (li + 1) (body li st)).final } := by
  rw [SceneData.eachLightFrom, if_pos h, if_pos hb]

theorem eachLightFrom_out_of_bounds {σ : Type} (body : Nat → SceneData × σ → SceneData × σ)
    (li : Nat) (st : SceneData × σ) (h : li < st.1.light_count) (hb : ¬ li < lptMaxLights) :
    SceneData.eachLightFrom body li st = { reads := [li], final := none } := by
  rw [SceneData.eachLightFrom, if_pos h, if_neg hb]

/-- With a body that keeps `light_count` and a count within the array, the loop entered at
`li` reads the indices `li, ..., light_count - 1` and runs `body` on each in turn. -/
theorem eachLightFrom_keeps {σ : Type} (body : Nat → SceneData × σ → SceneData × σ)
    (hbody : KeepsLightCount body) :
    ∀ (m li : Nat) (st : SceneData × σ), st.1.light_count - li = m →
      li ≤ st.1.light_count → st.1.light_count ≤ lptMaxLights →
      SceneData.eachLightFrom body li st
        = { reads := List.range' li (st.1.light_count - li),
            final := some ((List.range' li (st.1.light_count - li)).foldl
              (fun s i => body i s) st) } := by
  intro m
  induction m with
  | zero =>
    intro li st hm hle hcap
    have hge : ¬ li < st.1.light_count := by omega
    rw [eachLightFrom_done body li st hge, hm]
    rfl
  | succ m ih =>
    intro li st hm hle hcap
    have hlt : li < st.1.light_count := by omega
    have hb : li < lptMaxLights := by omega
    have hcount : (body li st).1.light_count = st.1.light_count := hbody li st
    rw [eachLightFrom_step body li st hlt hb,
      ih (li + 1) (body li st) (by omega) (by omega) (by omega), hcount]
    have h1 : st.1.light_count - li = (st.1.light_count - (li + 1)) + 1 := by omega
    rw [h1, List.range'_succ, List.foldl_cons]

/-- With a body that keeps `light_count` and a count above the array size, the loop entered
at `li` reads the indices `li, ..., lptMaxLights` and has no final state. -/
theorem eachLightFrom_overflow {σ : Type} (body : Nat → SceneData × σ → SceneData × σ)
    (hbody : KeepsLightCount body) :
    ∀ (m li : Nat) (st : SceneData × σ), lptMaxLights - li = m →
      li ≤ lptMaxLights → lptMaxLights < st.1.light_count →
      SceneData.eachLightFrom body li st
        = { reads := List.range' li (lptMaxLights + 1 - li), final := none } := by
  intro m
  induction m with
  | zero =>
    intro li st hm hle hcap
    have hlt : li < st.1.light_count := by omega
    have hb : ¬ li < lptMaxLights := by omega
    have h1 : lptMaxLights + 1 - li = 1 := by omega
    rw [eachLightFrom_out_of_bounds body li st hlt hb, h1]
    rfl
  | succ m ih =>
    intro li st hm hle hcap
    have hlt : li < st.1.light_count := by omega
    have hb : li < lptMaxLights := by omega
    have hcount : (body li st).1.light_count = st.1.light_count := hbody li st
    rw [eachLightFrom_step body li st hlt hb,
      ih (li + 1) (body li st) (by omega) (by omega) (by omega)]
    have h1 : lptMaxLights + 1 - li = (lptMaxLights + 1 - (li + 1)) + 1 := by omega
    rw [h1, List.range'_succ]

theorem readerBody_keeps {σ : Type} (f : σ → LightData → σ) : KeepsLightCount (readerBody f) := by
  intro i s
  unfold readerBody
  cases s.1.lights[i]? <;> rfl

/-- Folding a reader body over the indices `li, ..., li + k - 1` leaves the scene and folds
`f` over the corresponding records. -/
theorem foldl_readerBody {σ : Type} (f : σ → LightData → σ) (d : SceneData) :
    ∀ (k li : Nat) (x : σ), li + k ≤ d.lights.length →
      (List.range' li k).foldl (fun s i => readerBody f i s) (d, x)
        = (d, ((d.lights.drop li).take k).foldl f x) := by
  intro k
  induction k with
  | zero => intro li x _; simp
  | succ k ih =>
    intro li x hle
    have hlt : li < d.lights.length := by omega
    rw [List.range'_succ, List.foldl_cons]
    have hstep : readerBody f li (d, x) = (d, f x d.lights[li]) := by
      simp only [readerBody, List.getElem?_eq_getElem hlt]
    rw [hstep, ih (li + 1) _ (by omega), List.drop_eq_getElem_cons hlt, List.take_succ_cons,
      List.foldl_cons]

theorem foldl_log_indices (d : SceneData) :
    ∀ (xs acc : List Nat),
      xs.foldl (fun (s : SceneData × List Nat) i => (s.1, s.2 ++ [i])) (d, acc)
        = (d, acc ++ xs) := by
  intro xs
  induction xs with
  | nil => intro acc; simp
  | cons x xs ih => intro acc; simp [ih]

/-- C11 (as stated, refuted): the loop re-reads `light_count` before every iteration, so on
a scene with `light_count = 3` a body that writes `1` into `light_count` is invoked once,
on `lights[0]` only, and a body that writes `4` is invoked four times, the last time on
`lights[3]`. -/
theorem eachLight_count_written_counterexample :
    (SceneData.init 0 3 0 0 float4.zero (fun _ => ⟨0, 0, 0⟩)).light_count = 3 ∧
    (SceneData.eachLight (countWritingBody 1) ((SceneData.init 0 3 0 0 float4.zero (fun _ => ⟨0, 0, 0⟩)), 0)).reads = [0] ∧
    (SceneData.eachLight (countWritingBody 1) ((SceneData.init 0 3 0 0 float4.zero (fun _ => ⟨0, 0, 0⟩)), 0)).final.map Prod.snd = some 1 ∧
    (SceneData.eachLight (countWritingBody 4) ((SceneData.init 0 3 0 0 float4.zero (fun _ => ⟨0, 0, 0⟩)), 0)).reads = [0, 1, 2, 3] ∧
    (SceneData.eachLight (countWritingBody 4) ((SceneData.init 0 3 0 0 float4.zero (fun _ => ⟨0, 0, 0⟩)), 0)).final.map Prod.snd = some 4 := by
  have h1 : SceneData.eachLight (countWritingBody 1) ((SceneData.init 0 3 0 0 float4.zero (fun _ => ⟨0, 0, 0⟩)), 0)
      = { reads := [0], final := some (countWritingBody 1 0 ((SceneData.init 0 3 0 0 float4.zero (fun _ => ⟨0, 0, 0⟩)), 0)) } := by
    rw [SceneData.eachLight, eachLightFrom_step _ _ _ (by decide) (by decide),
      eachLightFrom_done _ _ _ (by decide)]
  have h4 : SceneData.eachLight (countWritingBody 4) ((SceneData.init 0 3 0 0 float4.zero (fun _ => ⟨0, 0, 0⟩)), 0)
      = { reads := [0, 1, 2, 3],
          final := some (countWritingBody 4 3 (countWritingBody 4 2 (countWritingBody 4 1
            (countWritingBody 4 0 ((SceneData.init 0 3 0 0 float4.zero (fun _ => ⟨0, 0, 0⟩)), 0))))) } := by
    rw [SceneData.eachLight, eachLightFrom_step _ _ _ (by decide) (by decide),
      eachLightFrom_step _ _ _ (by decide) (by decide),
      eachLightFrom_step _ _ _ (by decide) (by decide),
      eachLightFrom_step _ _ _ (by decide) (by decide),
      eachLightFrom_done _ _ _ (by decide)]
  rw [h1, h4]
  exact ⟨rfl, rfl, rfl, rfl, rfl⟩

/-- C11 (amended): for a scene with `light_count = n ≤ 32` and a body that never writes
`light_count` (it may read and write the light records and anything else), `eachLight`
completes, evaluates `lights[li]` for `li = 0, 1, ..., n-1` in this order and for no other
index, and its effect is that of running `body` on these elements in turn: exactly `n`
invocations, none when `n = 0`. In particular a body that only reads the record it is
handed sees `lights[0], ..., lights[n-1]` in order. -/
theorem eachLight_visits_first_lights (σ : Type) (body : Nat → SceneData × σ → SceneData × σ)
    (st : SceneData × σ) (hbody : KeepsLightCount body) (hn : st.1.light_count ≤ 32) :
    (SceneData.eachLight body st).reads = List.range st.1.light_count ∧
    (SceneData.eachLight body st).final
      = some ((List.range st.1.light_count).foldl (fun s i => body i s) st) ∧
    (SceneData.eachLight body st).reads.length = st.1.light_count ∧
    (st.1.light_count = 0 →
      (SceneData.eachLight body st).reads = [] ∧
      (SceneData.eachLight body st).final = some st) ∧
    (∀ f : σ → LightData → σ, st.1.lights.length = lptMaxLights →
      (SceneData.eachLight (readerBody f) st).final
        = some (st.1, (st.1.lights.take st.1.light_count).foldl f st.2)) ∧
    (SceneData.eachLight (fun i s => (s.1, s.2 ++ [i])) (st.1, ([] : List Nat))).final
      = some (st.1, List.range st.1.light_count) := by
  have hcap : st.1.light_count ≤ lptMaxLights := hn
  have hgen : ∀ (τ : Type) (b : Nat → SceneData × τ → SceneData × τ) (x : τ),
      KeepsLightCount b →
      SceneData.eachLight b (st.1, x)
        = { reads := List.range st.1.light_count,
            final := some ((List.range st.1.light_count).foldl (fun s i => b i s)
              (st.1, x)) } := by
    intro τ b x hb
    rw [SceneData.eachLight,
      eachLightFrom_keeps b hb st.1.light_count 0 (st.1, x) (by simp) (by omega) hcap,
      List.range_eq_range']
    rfl
  have hmain := hgen σ body st.2 hbody
  refine ⟨?_, ?_, ?_, ?_, ?_, ?_⟩
  · rw [hmain]
  · rw [hmain]
  · rw [hmain]; simp
  · intro h0
    rw [hmain, h0]
    exact ⟨rfl, rfl⟩
  · intro f hlen
    have hr := hgen σ (readerBody f) st.2 (readerBody_keeps f)
    have hst : (st.1, st.2) = st := rfl
    rw [hst] at hr
    rw [hr]
    simp only
    rw [List.range_eq_range', ← hst,
      foldl_readerBody f st.1 st.1.light_count 0 st.2 (by rw [hlen]; omega)]
    simp
  · rw [hgen (List Nat) (fun i s => (s.1, s.2 ++ [i])) [] (fun _ _ => rfl)]
    simp only
    rw [foldl_log_indices]
    simp

theorem eachLight_visits_first_lights_witness :
    KeepsLightCount (fun i (s : SceneData × List Nat) => (s.1, s.2 ++ [i])) ∧
    ((SceneData.init 0 2 0 0 float4.zero (fun _ => ⟨0, 0, 0⟩)), ([] : List Nat)).1.light_count ≤ 32 ∧
    (SceneData.eachLight (fun i (s : SceneData × List Nat) => (s.1, s.2 ++ [i]))
      ((SceneData.init 0 2 0 0 float4.zero (fun _ => ⟨0, 0, 0⟩)), [])).reads = List.range 2 ∧
    (SceneData.eachLight (fun i (s : SceneData × List Nat) => (s.1, s.2 ++ [i]))
      ((SceneData.init 0 2 0 0 float4.zero (fun _ => ⟨0, 0, 0⟩)), [])).final = some ((SceneData.init 0 2 0 0 float4.zero (fun _ => ⟨0, 0, 0⟩)), List.range 2) :=
  ⟨fun _ _ => rfl, by decide,
   (eachLight_visits_first_lights (List Nat) (fun i s => (s.1, s.2 ++ [i]))
     ((SceneData.init 0 2 0 0 float4.zero (fun _ => ⟨0, 0, 0⟩)), []) (fun _ _ => rfl) (by decide)).1,
   (eachLight_visits_first_lights (List Nat) (fun i s => (s.1, s.2 ++ [i]))
     ((SceneData.init 0 2 0 0 float4.zero (fun _ => ⟨0, 0, 0⟩)), []) (fun _ _ => rfl) (by decide)).2.2.2.2.2⟩

/-- C12 (as stated, refuted): on a scene with `light_count = 33` a body that writes `0` into
`light_count` stops the loop after the first element: the only index read is `0`, inside
the array, and index `32` is never accessed. -/
theorem eachLight_bounds_counterexample :
    (SceneData.init 0 33 0 0 float4.zero (fun _ => ⟨0, 0, 0⟩)).light_count = 33 ∧
    (SceneData.eachLight (countWritingBody 0) ((SceneData.init 0 33 0 0 float4.zero (fun _ => ⟨0, 0, 0⟩)), 0)).reads = [0] ∧
    (∀ i ∈ (SceneData.eachLight (countWritingBody 0) ((SceneData.init 0 33 0 0 float4.zero (fun _ => ⟨0, 0, 0⟩)), 0)).reads, i < lptMaxLights) ∧
    ¬ (SceneData.init 0 33 0 0 float4.zero (fun _ => ⟨0, 0, 0⟩)).light_count ≤ 32 ∧
    32 ∉ (SceneData.eachLight (countWritingBody 0) ((SceneData.init 0 33 0 0 float4.zero (fun _ => ⟨0, 0, 0⟩)), 0)).reads ∧
    (SceneData.eachLight (countWritingBody 0) ((SceneData.init 0 33 0 0 float4.zero (fun _ => ⟨0, 0, 0⟩)), 0)).final.isSome = true := by
  have h1 : SceneData.eachLight (countWritingBody 0) ((SceneData.init 0 33 0 0 float4.zero (fun _ => ⟨0, 0, 0⟩)), 0)
      = { reads := [0], final := some (countWritingBody 0 0 ((SceneData.init 0 33 0 0 float4.zero (fun _ => ⟨0, 0, 0⟩)), 0)) } := by
    rw [SceneData.eachLight, eachLightFrom_step _ _ _ (by decide) (by decide),
      eachLightFrom_done _ _ _ (by decide)]
  rw [h1]
  exact ⟨rfl, rfl, by decide, by decide, by decide, rfl⟩

/-- C12 (amended): the capacity `lptMaxLights = 32` is not checked by the iteration. For a
body that never writes `light_count`, every index at which `eachLight` evaluates
`lights[li]` lies inside the 32-element array if and only if `light_count ≤ 32`, and only
then does the iteration complete. With `light_count = 33` (more generally above 32)
`eachLight` evaluates `lights[li]` for `li = 0, ..., 32`: it accesses index 32, outside the
array, instead of stopping after the 32 valid elements. -/
theorem eachLight_reads_in_bounds_iff (σ : Type) (body : Nat → SceneData × σ → SceneData × σ)
    (st : SceneData × σ) (hbody : KeepsLightCount body) :
    lptMaxLights = 32 ∧
    ((∀ i ∈ (SceneData.eachLight body st).reads, i < lptMaxLights) ↔
      st.1.light_count ≤ 32) ∧
    ((SceneData.eachLight body st).final.isSome = true ↔ st.1.light_count ≤ 32) ∧
    (st.1.light_count = 33 →
      (SceneData.eachLight body st).reads = List.range 33 ∧
      32 ∈ (SceneData.eachLight body st).reads ∧ ¬ 32 < lptMaxLights ∧
      (SceneData.eachLight body st).final = none) ∧
    (32 < st.1.light_count →
      (SceneData.eachLight body st).reads = List.range 33 ∧
      32 ∈ (SceneData.eachLight body st).reads ∧
      (SceneData.eachLight body st).final = none ∧
      (SceneData.eachLight body st).final
        ≠ some ((List.range 32).foldl (fun s i => body i s) st)) := by
  have hsmall : st.1.light_count ≤ 32 →
      SceneData.eachLight body st
        = { reads := List.range st.1.light_count,
            final := some ((List.range st.1.light_count).foldl (fun s i => body i s) st) } := by
    intro hn
    have hcap : st.1.light_count ≤ lptMaxLights := hn
    rw [SceneData.eachLight,
      eachLightFrom_keeps body hbody st.1.light_count 0 st (by simp) (by omega) hcap,
      List.range_eq_range']
    rfl
  have hbig : 32 < st.1.light_count →
      SceneData.eachLight body st = { reads := List.range 33, final := none } := by
    intro hgt
    have hcap : lptMaxLights < st.1.light_count := hgt
    rw [SceneData.eachLight,
      eachLightFrom_overflow body hbody lptMaxLights 0 st (by simp) (by omega) hcap,
      List.range_eq_range']
    rfl
  have hbig2 : 32 < st.1.light_count →
      (SceneData.eachLight body st).reads = List.range 33 ∧
      32 ∈ (SceneData.eachLight body st).reads ∧
      (SceneData.eachLight body st).final = none ∧
      (SceneData.eachLight body st).final
        ≠ some ((List.range 32).foldl (fun s i => body i s) st) := by
    intro hgt
    rw [hbig hgt]
    exact ⟨rfl, by simp, rfl, fun h => Option.noConfusion h⟩
  refine ⟨rfl, ?_, ?_, ?_, hbig2⟩
  · constructor
    · intro h
      by_contra hc
      have hgt : 32 < st.1.light_count := by omega
      have h32 := h 32 (hbig2 hgt).2.1
      unfold lptMaxLights at h32
      omega
    · intro hn i hi
      rw [hsmall hn] at hi
      have := List.mem_range.mp hi
      unfold lptMaxLights
      omega
  · constructor
    · intro h
      by_contra hc
      have hgt : 32 < st.1.light_count := by omega
      rw [(hbig2 hgt).2.2.1] at h
      exact absurd h (by simp)
    · intro hn
      rw [hsmall hn]
      rfl
  · intro h33
    have hb := hbig2 (by omega)
    exact ⟨hb.1, hb.2.1, by decide, hb.2.2.1⟩

theorem eachLight_reads_in_bounds_iff_witness :
    KeepsLightCount (fun i (s : SceneData × List Nat) => (s.1, s.2 ++ [i])) ∧
    ((SceneData.init 0 33 0 0 float4.zero (fun _ => ⟨0, 0, 0⟩)), ([] : List Nat)).1.light_count = 33 ∧
    32 ∈ (SceneData.eachLight (fun i (s : SceneData × List Nat) => (s.1, s.2 ++ [i]))
      ((SceneData.init 0 33 0 0 float4.zero (fun _ => ⟨0, 0, 0⟩)), [])).reads ∧
    (SceneData.eachLight (fun i (s : SceneData × List Nat) => (s.1, s.2 ++ [i]))
      ((SceneData.init 0 33 0 0 float4.zero (fun _ => ⟨0, 0, 0⟩)), [])).final = none :=
  ⟨fun _ _ => rfl, by decide,
   ((eachLight_reads_in_bounds_iff (List Nat) (fun i s => (s.1, s.2 ++ [i]))
     ((SceneData.init 0 33 0 0 float4.zero (fun _ => ⟨0, 0, 0⟩)), []) (fun _ _ => rfl)).2.2.2.1 (by decide)).2.1,
   ((eachLight_reads_in_bounds_iff (List Nat) (fun i s => (s.1, s.2 ++ [i]))
     ((SceneData.init 0 33 0 0 float4.zero (fun _ => ⟨0, 0, 0⟩)), []) (fun _ _ => rfl)).2.2.2.1 (by decide)).2.2.2⟩

/-! ## Instance flags -/

/-- C13: `InstanceFlag::Default = ReceiveShadows | CastShadows | CullBack`, the value `0x25`;
a freshly constructed `MeshInstance` carries this mask, so `hasFlag(ReceiveShadows)`,
`hasFlag(CastShadows)` and `hasFlag(CullBack)` are true and `hasFlag(ShadowsOnly)` is
false, `hasFlag(f)` being the test of the mask against the bit `f`. -/
theorem meshInstance_default_flags (v : Option Nat) (m_data : InstanceData) :
    InstanceFlag.Default
      = InstanceFlag.ReceiveShadows ||| InstanceFlag.CastShadows ||| InstanceFlag.CullBack ∧
    InstanceFlag.Default = 0x25 ∧
    (MeshInstance.new v m_data).m_instance_flags = InstanceFlag.Default ∧
    (MeshInstance.new v m_data).hasFlag InstanceFlag.ReceiveShadows = true ∧
    (MeshInstance.new v m_data).hasFlag InstanceFlag.CastShadows = true ∧
    (MeshInstance.new v m_data).hasFlag InstanceFlag.CullBack = true ∧
    (MeshInstance.new v m_data).hasFlag InstanceFlag.ShadowsOnly = false ∧
    (∀ (m : MeshInstance) (f : InstanceFlag), m.hasFlag f = true ↔ m.m_instance_flags &&& f ≠ 0) := by
  refine ⟨rfl, by decide, rfl, ?_, ?_, ?_, ?_, ?_⟩
  · show ((InstanceFlag.Default &&& InstanceFlag.ReceiveShadows) != 0) = true
    decide
  · show ((InstanceFlag.Default &&& InstanceFlag.CastShadows) != 0) = true
    decide
  · show ((InstanceFlag.Default &&& InstanceFlag.CullBack) != 0) = true
    decide
  · show ((InstanceFlag.Default &&& InstanceFlag.ShadowsOnly) != 0) = false
    decide
  · intro m f
    simp [MeshInstance.hasFlag]

/-! ## Independence of the two counts -/

/-- C14: `addRef()` and `release()` change only the external count (the internal count and
every other member keep their value); `addRefInternal()` and a `releaseInternal()` that
does not destroy change only the internal count; `getRef()` and `getRefInternal()` change
nothing and return the external and the internal count. -/
theorem counts_independent (s : RefCount) :
    ((RefCount.addRef s).2 = { s with m_ref_external := (RefCount.addRef s).1 } ∧
      (RefCount.addRef s).2.m_ref_internal = s.m_ref_internal) ∧
    ((RefCount.release s).2 = { s with m_ref_external := (RefCount.release s).1 } ∧
      (RefCount.release s).2.m_ref_internal = s.m_ref_internal) ∧
    ((RefCount.addRefInternal s).2 = { s with m_ref_internal := (RefCount.addRefInternal s).1 } ∧
      (RefCount.addRefInternal s).2.m_ref_external = s.m_ref_external) ∧
    ((RefCount.releaseInternal s).1 ≠ 0 →
      (RefCount.releaseInternal s).2
        = { s with m_ref_internal := (RefCount.releaseInternal s).1 }) ∧
    (RefCount.releaseInternal s).2.m_ref_external = s.m_ref_external ∧
    (RefCount.getRef s).2 = s ∧ (RefCount.getRef s).1 = s.m_ref_external ∧
    (RefCount.getRefInternal s).2 = s ∧ (RefCount.getRefInternal s).1 = s.m_ref_internal := by
  refine ⟨⟨rfl, rfl⟩, ⟨rfl, rfl⟩, ⟨rfl, rfl⟩, ?_, releaseInternal_external s, rfl, rfl, rfl, rfl⟩
  intro hne
  have hret : (RefCount.releaseInternal s).1 = wrapInt32 (s.m_ref_internal - 1) := rfl
  rw [hret] at hne
  unfold RefCount.releaseInternal
  simp [hne]

theorem counts_independent_witness :
    (RefCount.releaseInternal (RefCount.mk 5 2 "" 0 true)).1 ≠ 0 ∧
    (RefCount.releaseInternal (RefCount.mk 5 2 "" 0 true)).2
      = { RefCount.mk 5 2 "" 0 true with
          m_ref_internal := (RefCount.releaseInternal (RefCount.mk 5 2 "" 0 true)).1 } ∧
    (RefCount.releaseInternal (RefCount.mk 5 2 "" 0 true)).2.m_ref_external = 5 :=
  ⟨by decide,
   (counts_independent (RefCount.mk 5 2 "" 0 true)).2.2.2.1 (by decide),
   (counts_independent (RefCount.mk 5 2 "" 0 true)).2.2.2.2.1⟩

/-! ## Paired use -/

theorem netCount_take_succ_cons (a r c : Call) (cs : List Call) (k : Nat) :
    netCount a r ((c :: cs).take (k + 1)) = netCount a r [c] + netCount a r (cs.take k) := by
  unfold netCount
  rw [count_take_succ_cons, count_take_succ_cons]
  have h1 : ([c].count a : Int) = (if c = a then 1 else 0) := by
    by_cases h : c = a
    · subst h; simp
    · have h2 : ¬ (c == a) = true := by simpa using h
      simp [List.count_cons, h, h2]
  have h2 : ([c].count r : Int) = (if c = r then 1 else 0) := by
    by_cases h : c = r
    · subst h; simp
    · have h2 : ¬ (c == r) = true := by simpa using h
      simp [List.count_cons, h, h2]
  rw [h1, h2]
  push_cast
  split <;> split <;> omega

theorem netCount_nil (a r : Call) : netCount a r [] = 0 := rfl

theorem runCallsRet_dead (s : RefCount) (h : s.alive = false) (cs : List Call) :
    runCallsRet s cs = [] := by
  cases cs with
  | nil => rfl
  | cons c cs => simp [runCallsRet, h]

theorem runCallsRet_cons_alive (s : RefCount) (h : s.alive = true) (c : Call) (cs : List Call) :
    runCallsRet s (c :: cs) = c.run s :: runCallsRet (c.run s).2 cs := by
  simp [runCallsRet, h]

/-- Effect of one internal call whose result fits the 32-bit counter. -/
theorem run_internal_step (s : RefCount) (hal : s.alive = true) (c : Call)
    (hc : c = Call.addRefInternal ∨ c = Call.releaseInternal)
    (h0 : 0 ≤ s.m_ref_internal ∧ s.m_ref_internal ≤ INT_MAX)
    (h1 : 0 ≤ s.m_ref_internal + netCount Call.addRefInternal Call.releaseInternal [c] ∧
      s.m_ref_internal + netCount Call.addRefInternal Call.releaseInternal [c] ≤ INT_MAX) :
    (c.run s).1 = s.m_ref_internal + netCount Call.addRefInternal Call.releaseInternal [c] ∧
    (c.run s).2.m_ref_internal = (c.run s).1 ∧
    ((c.run s).2.alive = false ↔ (c.run s).1 = 0) ∧
    (c.run s).2.m_ref_external = s.m_ref_external := by
  unfold INT_MAX at h0 h1
  rcases hc with hc | hc <;> subst hc
  · have hn : netCount Call.addRefInternal Call.releaseInternal [Call.addRefInternal] = 1 := by
      decide
    rw [hn] at h1 ⊢
    have hw : wrapInt32 (s.m_ref_internal + 1) = s.m_ref_internal + 1 :=
      wrapInt32_of_isInt32 (by unfold IsInt32 INT_MIN INT_MAX; omega)
    have hret : (Call.run Call.addRefInternal s).1 = s.m_ref_internal + 1 := by
      simp only [Call.run, RefCount.addRefInternal, hw]
    have hal2 : (Call.run Call.addRefInternal s).2.alive = true := hal
    refine ⟨hret, ?_, ?_, rfl⟩
    · rw [hret]
      simp only [Call.run, RefCount.addRefInternal, hw]
    · rw [hret, hal2]
      constructor
      · intro h; exact absurd h (by simp)
      · intro h; omega
  · have hn : netCount Call.addRefInternal Call.releaseInternal [Call.releaseInternal] = -1 := by
      decide
    rw [hn] at h1 ⊢
    have hw : wrapInt32 (s.m_ref_internal - 1) = s.m_ref_internal - 1 :=
      wrapInt32_of_isInt32 (by unfold IsInt32 INT_MIN INT_MAX; omega)
    have hret : (Call.run Call.releaseInternal s).1 = s.m_ref_internal - 1 := by
      simp only [Call.run, RefCount.releaseInternal, hw]
    refine ⟨by rw [hret]; omega, ?_, ?_, ?_⟩
    · rw [hret]
      simp only [Call.run]
      rw [releaseInternal_internal, hw]
    · rw [hret]
      simp only [Call.run, RefCount.releaseInternal, hw]
      by_cases hz : s.m_ref_internal - 1 = 0
      · simp [hz]
      · simp [hz, hal]
    · simp only [Call.run]
      exact releaseInternal_external s

theorem runCallsRet_internal (cs : List Call) :
    ∀ s : RefCount, s.alive = true →
      OnlyCalls Call.addRefInternal Call.releaseInternal cs →
      (∀ k, k ≤ cs.length →
        0 ≤ s.m_ref_internal
            + netCount Call.addRefInternal Call.releaseInternal (cs.take k) ∧
        s.m_ref_internal
            + netCount Call.addRefInternal Call.releaseInternal (cs.take k) ≤ INT_MAX) →
      (∀ k r, (runCallsRet s cs)[k]? = some r →
        r.1 = s.m_ref_internal
            + netCount Call.addRefInternal Call.releaseInternal (cs.take (k + 1)) ∧
        r.2.m_ref_internal = r.1 ∧ (r.2.alive = false ↔ r.1 = 0) ∧
        r.2.m_ref_external = s.m_ref_external) ∧
      (∀ k, k < cs.length →
        (∀ j, j < k → s.m_ref_internal
            + netCount Call.addRefInternal Call.releaseInternal (cs.take (j + 1)) ≠ 0) →
        k < (runCallsRet s cs).length) ∧
      (∀ k, k < (runCallsRet s cs).length → ∀ j, j < k →
        s.m_ref_internal
            + netCount Call.addRefInternal Call.releaseInternal (cs.take (j + 1)) ≠ 0) := by
  induction cs with
  | nil =>
    intro s _ _ _
    refine ⟨?_, ?_, ?_⟩
    · intro k r h; simp [runCallsRet] at h
    · intro k hk; simp at hk
    · intro k hk; simp [runCallsRet] at hk
  | cons c cs ih =>
    intro s hal honly hrange
    have hc := honly c (List.mem_cons_self _ _)
    have honly2 : OnlyCalls Call.addRefInternal Call.releaseInternal cs :=
      fun x hx => honly x (List.mem_cons_of_mem _ hx)
    have h0 := hrange 0 (Nat.zero_le _)
    simp only [List.take_zero, netCount_nil, Int.add_zero] at h0
    have h1 := hrange 1 (by simp)
    have htake1 : (c :: cs).take 1 = [c] := by simp
    rw [htake1] at h1
    obtain ⟨hr1, hr2, hr3, hr4⟩ := run_internal_step s hal c hc h0 h1
    have hshift : ∀ k, s.m_ref_internal
          + netCount Call.addRefInternal Call.releaseInternal ((c :: cs).take (k + 1))
        = (c.run s).2.m_ref_internal
          + netCount Call.addRefInternal Call.releaseInternal (cs.take k) := by
      intro k
      rw [netCount_take_succ_cons, hr2, hr1]
      omega
    rw [runCallsRet_cons_alive s hal]
    cases hal2 : (c.run s).2.alive with
    | false =>
      have hzero : (c.run s).1 = 0 := hr3.mp hal2
      rw [runCallsRet_dead _ hal2]
      refine ⟨?_, ?_, ?_⟩
      · intro k r h
        cases k with
        | zero =>
          simp only [List.getElem?_cons_zero, Option.some.injEq] at h
          subst h
          rw [htake1]
          exact ⟨hr1, hr2, hr3, hr4⟩
        | succ k => simp at h
      · intro k hk hnz
        cases k with
        | zero => simp
        | succ k =>
          have h2 := hnz 0 (Nat.succ_pos _)
          rw [htake1, ← hr1] at h2
          exact absurd hzero h2
      · intro k hk j hj
        simp only [List.length_cons, List.length_nil] at hk
        omega
    | true =>
      have hrange2 : ∀ k, k ≤ cs.length →
          0 ≤ (c.run s).2.m_ref_internal
              + netCount Call.addRefInternal Call.releaseInternal (cs.take k) ∧
          (c.run s).2.m_ref_internal
              + netCount Call.addRefInternal Call.releaseInternal (cs.take k) ≤ INT_MAX := by
        intro k hk
        rw [← hshift k]
        exact hrange (k + 1) (by simp [hk])
      obtain ⟨ih1, ih2, ih3⟩ := ih (c.run s).2 hal2 honly2 hrange2
      have hnz0 : (c.run s).1 ≠ 0 := by
        intro hz
        have := hr3.mpr hz
        rw [hal2] at this
        exact absurd this (by simp)
      refine ⟨?_, ?_, ?_⟩
      · intro k r h
        cases k with
        | zero =>
          simp only [List.getElem?_cons_zero, Option.some.injEq] at h
          subst h
          rw [htake1]
          exact ⟨hr1, hr2, hr3, hr4⟩
        | succ k =>
          rw [List.getElem?_cons_succ] at h
          obtain ⟨a1, a2, a3, a4⟩ := ih1 k r h
          rw [hshift (k + 1)]
          exact ⟨a1, a2, a3, a4.trans hr4⟩
      · intro k hk hnz
        cases k with
        | zero => simp
        | succ k =>
          simp only [List.length_cons] at hk ⊢
          have := ih2 k (by omega) (by
            intro j hj
            rw [← hshift (j + 1)]
            exact hnz (j + 1) (by omega))
          omega
      · intro k hk j hj
        cases j with
        | zero =>
          rw [htake1, ← hr1]
          exact hnz0
        | succ j =>
          rw [hshift (j + 1)]
          simp only [List.length_cons] at hk
          exact ih3 (k - 1) (by omega) j (by omega)

/-- Effect of one external call whose result fits the 32-bit counter. -/
theorem run_external_step (s : RefCount) (c : Call)
    (hc : c = Call.addRef ∨ c = Call.release)
    (h0 : 0 ≤ s.m_ref_external ∧ s.m_ref_external ≤ INT_MAX)
    (h1 : 0 ≤ s.m_ref_external + netCount Call.addRef Call.release [c] ∧
      s.m_ref_external + netCount Call.addRef Call.release [c] ≤ INT_MAX) :
    (c.run s).1 = s.m_ref_external + netCount Call.addRef Call.release [c] ∧
    (c.run s).2.m_ref_external = (c.run s).1 ∧
    (c.run s).2.alive = s.alive ∧
    (c.run s).2.m_ref_internal = s.m_ref_internal := by
  unfold INT_MAX at h0 h1
  rcases hc with hc | hc <;> subst hc
  · have hn : netCount Call.addRef Call.release [Call.addRef] = 1 := by decide
    rw [hn] at h1 ⊢
    have hw : wrapInt32 (s.m_ref_external + 1) = s.m_ref_external + 1 :=
      wrapInt32_of_isInt32 (by unfold IsInt32 INT_MIN INT_MAX; omega)
    have hret : (Call.run Call.addRef s).1 = s.m_ref_external + 1 := by
      simp only [Call.run, RefCount.addRef, hw]
    exact ⟨hret, rfl, rfl, rfl⟩
  · have hn : netCount Call.addRef Call.release [Call.release] = -1 := by decide
    rw [hn] at h1 ⊢
    have hw : wrapInt32 (s.m_ref_external - 1) = s.m_ref_external - 1 :=
      wrapInt32_of_isInt32 (by unfold IsInt32 INT_MIN INT_MAX; omega)
    have hret : (Call.run Call.release s).1 = s.m_ref_external - 1 := by
      simp only [Call.run, RefCount.release, hw]
    exact ⟨by rw [hret]; omega, rfl, rfl, rfl⟩

theorem runCallsRet_external (cs : List Call) :
    ∀ s : RefCount, s.alive = true →
      OnlyCalls Call.addRef Call.release cs →
      (∀ k, k ≤ cs.length →
        0 ≤ s.m_ref_external + netCount Call.addRef Call.release (cs.take k) ∧
        s.m_ref_external + netCount Call.addRef Call.release (cs.take k) ≤ INT_MAX) →
      (runCallsRet s cs).length = cs.length ∧
      (∀ k r, (runCallsRet s cs)[k]? = some r →
        r.1 = s.m_ref_external + netCount Call.addRef Call.release (cs.take (k + 1)) ∧
        r.2.m_ref_external = r.1 ∧ r.2.alive = true ∧
        r.2.m_ref_internal = s.m_ref_internal) := by
  induction cs with
  | nil =>
    intro s _ _ _
    refine ⟨rfl, ?_⟩
    intro k r h; simp [runCallsRet] at h
  | cons c cs ih =>
    intro s hal honly hrange
    have hc := honly c (List.mem_cons_self _ _)
    have honly2 : OnlyCalls Call.addRef Call.release cs :=
      fun x hx => honly x (List.mem_cons_of_mem _ hx)
    have h0 := hrange 0 (Nat.zero_le _)
    simp only [List.take_zero, netCount_nil, Int.add_zero] at h0
    have h1 := hrange 1 (by simp)
    have htake1 : (c :: cs).take 1 = [c] := by simp
    rw [htake1] at h1
    obtain ⟨hr1, hr2, hr3, hr4⟩ := run_external_step s c hc h0 h1
    have hal2 : (c.run s).2.alive = true := hr3.trans hal
    have hshift : ∀ k, s.m_ref_external
          + netCount Call.addRef Call.release ((c :: cs).take (k + 1))
        = (c.run s).2.m_ref_external + netCount Call.addRef Call.release (cs.take k) := by
      intro k
      rw [netCount_take_succ_cons, hr2, hr1]
      omega
    have hrange2 : ∀ k, k ≤ cs.length →
        0 ≤ (c.run s).2.m_ref_external + netCount Call.addRef Call.release (cs.take k) ∧
        (c.run s).2.m_ref_external + netCount Call.addRef Call.release (cs.take k)
          ≤ INT_MAX := by
      intro k hk
      rw [← hshift k]
      exact hrange (k + 1) (by simp [hk])
    obtain ⟨ih1, ih2⟩ := ih (c.run s).2 hal2 honly2 hrange2
    rw [runCallsRet_cons_alive s hal]
    refine ⟨by simp [ih1], ?_⟩
    intro k r h
    cases k with
    | zero =>
      simp only [List.getElem?_cons_zero, Option.some.injEq] at h
      subst h
      rw [htake1]
      exact ⟨hr1, hr2, hal2, hr4⟩
    | succ k =>
      rw [List.getElem?_cons_succ] at h
      obtain ⟨a1, a2, a3, a4⟩ := ih2 k r h
      rw [hshift (k + 1)]
      exact ⟨a1, a2, a3, a4.trans hr4⟩

theorem runCallsRet_length_le : ∀ (cs : List Call) (s : RefCount),
    (runCallsRet s cs).length ≤ cs.length := by
  intro cs
  induction cs with
  | nil => intro s; simp [runCallsRet]
  | cons c cs ih =>
    intro s
    cases hal : s.alive with
    | false => simp [runCallsRet, hal]
    | true =>
      rw [runCallsRet_cons_alive s hal]
      have := ih (c.run s).2
      simp only [List.length_cons]
      omega

theorem balanced_netCount_nonneg {a r : Call} {cs : List Call} (h : Balanced a r cs) (k : Nat)
    (hk : k ≤ cs.length) : 0 ≤ netCount a r (cs.take k) := by
  have h1 := h k hk
  unfold netCount
  omega

theorem foldl_markDirty_base (fs : List DirtyFlag) :
    ∀ e : EntityBase, (fs.foldl EntityBase.markDirty e).base = e.base ∧
      (fs.foldl EntityBase.markDirty e).m_dirty_flags
        = fs.foldl (fun x y => x ||| y) e.m_dirty_flags := by
  induction fs with
  | nil => intro e; exact ⟨rfl, rfl⟩
  | cons f fs ih =>
    intro e
    simp only [List.foldl_cons]
    exact ih (e.markDirty f)

theorem testBit_foldl_or (fs : List Nat) :
    ∀ (m i : Nat), (fs.foldl (fun x y => x ||| y) m).testBit i = true ↔
      m.testBit i = true ∨ ∃ f ∈ fs, f.testBit i = true := by
  induction fs with
  | nil => intro m i; simp
  | cons f fs ih =>
    intro m i
    simp only [List.foldl_cons]
    rw [ih (m ||| f) i, Nat.testBit_or, Bool.or_eq_true]
    constructor
    · rintro ((h | h) | ⟨g, hg, h⟩)
      · exact Or.inl h
      · exact Or.inr ⟨f, List.mem_cons_self _ _, h⟩
      · exact Or.inr ⟨g, List.mem_cons_of_mem _ hg, h⟩
    · rintro (h | ⟨g, hg, h⟩)
      · exact Or.inl (Or.inl h)
      · rcases List.mem_cons.mp hg with hgf | hgf
        · subst hgf; exact Or.inl (Or.inr h)
        · exact Or.inr ⟨g, hgf, h⟩

theorem or_right_comm_nat (m a b : Nat) : m ||| a ||| b = m ||| b ||| a := by
  rw [Nat.or_assoc, Nat.or_comm a b, ← Nat.or_assoc]

/-- C16: `markDirty` is idempotent (`markDirty(a)` twice is `markDirty(a)` once),
commutative (`markDirty(a)` then `markDirty(b)` gives the state of `markDirty(b)` then
`markDirty(a)`) and fuses (both equal a single `markDirty(a | b)`); hence after
`clearDirty()` followed by `markDirty(f1)`, ..., `markDirty(fn)`, in any order, the mask is
`f1 | ... | fn` and `isDirty(q)` holds if and only if `q` shares a bit with some `fi`. -/
theorem markDirty_algebra (e : EntityBase) :
    (∀ a, (e.markDirty a).markDirty a = e.markDirty a) ∧
    (∀ a b, (e.markDirty a).markDirty b = (e.markDirty b).markDirty a) ∧
    (∀ a b, (e.markDirty a).markDirty b = e.markDirty (a ||| b)) ∧
    (∀ fs : List DirtyFlag, (fs.foldl EntityBase.markDirty e.clearDirty).m_dirty_flags
      = fs.foldl (fun x y => x ||| y) 0) ∧
    (∀ fs gs : List DirtyFlag, fs.Perm gs →
      fs.foldl EntityBase.markDirty e.clearDirty = gs.foldl EntityBase.markDirty e.clearDirty) ∧
    (∀ (fs : List DirtyFlag) (q : DirtyFlag),
      (fs.foldl EntityBase.markDirty e.clearDirty).isDirty q = true ↔
        ∃ f ∈ fs, f &&& q ≠ 0) := by
  refine ⟨?_, ?_, ?_, ?_, ?_, ?_⟩
  · intro a
    simp only [EntityBase.markDirty, Nat.or_assoc, Nat.or_self]
  · intro a b
    simp only [EntityBase.markDirty, or_right_comm_nat e.m_dirty_flags a b]
  · intro a b
    simp only [EntityBase.markDirty, Nat.or_assoc]
  · intro fs
    exact (foldl_markDirty_base fs e.clearDirty).2
  · intro fs gs hperm
    apply List.Perm.foldl_eq' hperm
    intro x _ y _ z
    simp only [EntityBase.markDirty, or_right_comm_nat z.m_dirty_flags x y]
  · intro fs q
    rw [isDirty_eq_true_iff, and_ne_zero_iff_testBit, (foldl_markDirty_base fs e.clearDirty).2]
    constructor
    · rintro ⟨i, hi, hq⟩
      rcases (testBit_foldl_or fs _ i).mp hi with h | ⟨f, hf, h⟩
      · simp [EntityBase.clearDirty] at h
      · exact ⟨f, hf, and_ne_zero_of_testBit i h hq⟩
    · rintro ⟨f, hf, hne⟩
      obtain ⟨i, hfi, hqi⟩ := (and_ne_zero_iff_testBit f q).mp hne
      exact ⟨i, (testBit_foldl_or fs _ i).mpr (Or.inr ⟨f, hf, hfi⟩), hqi⟩

theorem markDirty_algebra_witness :
    [DirtyFlag.Points, DirtyFlag.Camera].Perm [DirtyFlag.Camera, DirtyFlag.Points] ∧
    [DirtyFlag.Points, DirtyFlag.Camera].foldl EntityBase.markDirty EntityBase.init.clearDirty
      = [DirtyFlag.Camera, DirtyFlag.Points].foldl EntityBase.markDirty
          EntityBase.init.clearDirty ∧
    ([DirtyFlag.Points, DirtyFlag.Camera].foldl EntityBase.markDirty
        EntityBase.init.clearDirty).m_dirty_flags = 0x01000020 :=
  ⟨List.Perm.swap _ _ _,
   (markDirty_algebra EntityBase.init).2.2.2.2.1 _ _ (List.Perm.swap _ _ _),
   ((markDirty_algebra EntityBase.init).2.2.2.1 [DirtyFlag.Points, DirtyFlag.Camera]).trans
     (by decide)⟩

/-! ## The category bits -/

theorem isDirty_clear_mark (e : EntityBase) (f g : DirtyFlag) :
    (e.clearDirty.markDirty f).isDirty g = true ↔ f &&& g ≠ 0 := by
  rw [isDirty_eq_true_iff]
  simp only [EntityBase.markDirty, EntityBase.clearDirty, Nat.zero_or]

/-- C17: the sixteen elementary dirty categories are pairwise distinct single-bit values, so
on a clean entity `markDirty(f)` for one of them makes `isDirty(g)` true for an elementary
`g` exactly when `g = f`; the composites `Deform`, `Vertices` and `SceneEntities` are
pairwise disjoint, `Shape` is contained in `Vertices`, and `Any` contains every category. -/
theorem elementary_categories_disjoint :
    DirtyFlag.elementary.length = 16 ∧
    DirtyFlag.elementary.Nodup ∧
    (∀ f ∈ DirtyFlag.elementary, ∃ i, i < 32 ∧ f = 2 ^ i) ∧
    (∀ (e : EntityBase), ∀ f ∈ DirtyFlag.elementary, ∀ g ∈ DirtyFlag.elementary,
      ((e.clearDirty.markDirty f).isDirty g = true ↔ g = f)) ∧
    DirtyFlag.Deform &&& DirtyFlag.Vertices = 0 ∧
    DirtyFlag.Deform &&& DirtyFlag.SceneEntities = 0 ∧
    DirtyFlag.Vertices &&& DirtyFlag.SceneEntities = 0 ∧
    DirtyFlag.Shape &&& DirtyFlag.Vertices = DirtyFlag.Shape ∧
    (∀ c ∈ DirtyFlag.enumerators, c &&& DirtyFlag.Any = c) ∧
    (∀ c : DirtyFlag, IsUInt32 c → c &&& DirtyFlag.Any = c) := by
  refine ⟨rfl, by decide, by decide, ?_, by decide, by decide, by decide, by decide,
    by decide, fun c hc => and_any_of_isUInt32 hc⟩
  intro e f hf g hg
  rw [isDirty_clear_mark]
  revert f g
  decide

theorem elementary_categories_disjoint_witness :
    DirtyFlag.Points ∈ DirtyFlag.elementary ∧ DirtyFlag.Normals ∈ DirtyFlag.elementary ∧
    ((EntityBase.init.clearDirty.markDirty DirtyFlag.Points).isDirty DirtyFlag.Normals = true ↔
      DirtyFlag.Normals = DirtyFlag.Points) ∧
    (∃ i, i < 32 ∧ DirtyFlag.Points = 2 ^ i) ∧
    IsUInt32 DirtyFlag.Vertices ∧ DirtyFlag.Vertices &&& DirtyFlag.Any = DirtyFlag.Vertices :=
  ⟨by decide, by decide,
   elementary_categories_disjoint.2.2.2.1 EntityBase.init DirtyFlag.Points (by decide)
     DirtyFlag.Normals (by decide),
   elementary_categories_disjoint.2.2.1 DirtyFlag.Points (by decide),
   by decide,
   elementary_categories_disjoint.2.2.2.2.2.2.2.2.2 DirtyFlag.Vertices (by decide)⟩

/-! ## Dirty tracking against reference counting -/

theorem apply_base_dirty (op : EntityOp) (e : EntityBase) :
    (op.apply e).base.m_dirty_flags = e.base.m_dirty_flags := by
  cases op <;> try rfl
  simp only [EntityOp.apply, EntityBase.releaseInternal, RefCount.releaseInternal]
  by_cases h0 : wrapInt32 (e.base.m_ref_internal - 1) = 0 <;> simp [h0]

/-- A call other than `markDirty` and `clearDirty` keeps the dirty mask. -/
theorem apply_mask_of_not_dirty_op (op : EntityOp) (e : EntityBase)
    (h : (∀ v, op ≠ EntityOp.markDirty v) ∧ op ≠ EntityOp.clearDirty) :
    (op.apply e).m_dirty_flags = e.m_dirty_flags := by
  cases op with
  | markDirty v => exact absurd rfl (h.1 v)
  | clearDirty => exact absurd rfl h.2
  | _ => rfl

/-- C18: `markDirty`, `clearDirty` and `isDirty` read and write only
`EntityBase::m_dirty_flags`: the `RefCount` part (both counts, the name, the hidden
`RefCount::m_dirty_flags`, liveness) is unchanged and the outcome depends on the mask alone.
`addRef`, `release`, `addRefInternal`, `releaseInternal` and `setName` leave both dirty
words unchanged. Hence after any sequence of calls `RefCount::m_dirty_flags` has its initial
value, `0` for a newly constructed entity. -/
theorem dirty_and_refcount_separate (e : EntityBase) :
    (∀ f, (e.markDirty f).base = e.base) ∧
    e.clearDirty.base = e.base ∧
    (∀ (e2 : EntityBase) (q f : DirtyFlag), e2.m_dirty_flags = e.m_dirty_flags →
      e2.isDirty q = e.isDirty q ∧
      (e2.markDirty f).m_dirty_flags = (e.markDirty f).m_dirty_flags ∧
      e2.clearDirty.m_dirty_flags = e.clearDirty.m_dirty_flags) ∧
    (e.addRef.2.m_dirty_flags = e.m_dirty_flags ∧
      e.addRef.2.base.m_dirty_flags = e.base.m_dirty_flags) ∧
    (e.release.2.m_dirty_flags = e.m_dirty_flags ∧
      e.release.2.base.m_dirty_flags = e.base.m_dirty_flags) ∧
    (e.addRefInternal.2.m_dirty_flags = e.m_dirty_flags ∧
      e.addRefInternal.2.base.m_dirty_flags = e.base.m_dirty_flags) ∧
    (e.releaseInternal.2.m_dirty_flags = e.m_dirty_flags ∧
      e.releaseInternal.2.base.m_dirty_flags = e.base.m_dirty_flags) ∧
    (∀ v, (e.setName v).m_dirty_flags = e.m_dirty_flags ∧
      (e.setName v).base.m_dirty_flags = e.base.m_dirty_flags) ∧
    (∀ ops : List EntityOp, (runOps e ops).base.m_dirty_flags = e.base.m_dirty_flags) ∧
    (∀ ops : List EntityOp, (runOps EntityBase.init ops).base.m_dirty_flags = 0) ∧
    (∀ ops : List EntityOp,
      (∀ op ∈ ops, (∀ v, op ≠ EntityOp.markDirty v) ∧ op ≠ EntityOp.clearDirty) →
      (runOps e ops).m_dirty_flags = e.m_dirty_flags) := by
  have hrun : ∀ (ops : List EntityOp) (x : EntityBase),
      (runOps x ops).base.m_dirty_flags = x.base.m_dirty_flags := by
    intro ops
    induction ops with
    | nil => intro x; rfl
    | cons op ops ih =>
      intro x
      cases hal : x.base.alive with
      | false => simp [runOps, hal]
      | true =>
        simp only [runOps, hal, if_true]
        rw [ih (op.apply x), apply_base_dirty]
  have hrun2 : ∀ (ops : List EntityOp) (x : EntityBase),
      (∀ op ∈ ops, (∀ v, op ≠ EntityOp.markDirty v) ∧ op ≠ EntityOp.clearDirty) →
      (runOps x ops).m_dirty_flags = x.m_dirty_flags := by
    intro ops
    induction ops with
    | nil => intro x _; rfl
    | cons op ops ih =>
      intro x hops
      cases hal : x.base.alive with
      | false => simp [runOps, hal]
      | true =>
        simp only [runOps, hal, if_true]
        rw [ih (op.apply x) (fun o ho => hops o (List.mem_cons_of_mem _ ho)),
          apply_mask_of_not_dirty_op op x (hops op (List.mem_cons_self _ _))]
  refine ⟨fun _ => rfl, rfl, ?_, ⟨rfl, rfl⟩, ⟨rfl, rfl⟩, ⟨rfl, rfl⟩,
    ⟨rfl, apply_base_dirty EntityOp.releaseInternal e⟩, fun _ => ⟨rfl, rfl⟩,
    fun ops => hrun ops e, fun ops => hrun ops EntityBase.init, fun ops => hrun2 ops e⟩
  intro e2 q f hm
  refine ⟨?_, ?_, rfl⟩
  · simp only [EntityBase.isDirty, hm]
  · simp only [EntityBase.markDirty, hm]

theorem dirty_and_refcount_separate_witness :
    (∀ op ∈ [EntityOp.addRef, EntityOp.addRefInternal, EntityOp.setName "cam",
        EntityOp.release],
      (∀ v, op ≠ EntityOp.markDirty v) ∧ op ≠ EntityOp.clearDirty) ∧
    (runOps (EntityBase.init.markDirty DirtyFlag.Camera)
      [EntityOp.addRef, EntityOp.addRefInternal, EntityOp.setName "cam",
        EntityOp.release]).m_dirty_flags
      = (EntityBase.init.markDirty DirtyFlag.Camera).m_dirty_flags ∧
    (runOps EntityBase.init
      [EntityOp.markDirty DirtyFlag.Mesh, EntityOp.addRefInternal,
        EntityOp.releaseInternal]).base.m_dirty_flags = 0 :=
  ⟨by simp,
   (dirty_and_refcount_separate (EntityBase.init.markDirty DirtyFlag.Camera)).2.2.2.2.2.2.2.2.2.2
     [EntityOp.addRef, EntityOp.addRefInternal, EntityOp.setName "cam", EntityOp.release]
     (by simp),
   (dirty_and_refcount_separate EntityBase.init).2.2.2.2.2.2.2.2.2.1
     [EntityOp.markDirty DirtyFlag.Mesh, EntityOp.addRefInternal, EntityOp.releaseInternal]⟩

end lpt
